import Mathlib

/-!
# GameClient (src/game.js): a shallow embedding

The browser client of `src/game.js` is one object, `GameClient`, whose fields
are mutated by event handlers (socket events, keyboard events, window resize).
Here the object is a record, every handler is a function from record to
record, and the effects a handler has on its collaborators are appended to
trace fields of the record:

* `sent`       : the commands handed to `ws.send`, oldest first;
* `redraws`    : the number of `drawGame()` calls made so far;
* `imageLoads` : the image loads started by `img.src = frameData`, oldest first.

Modelling conventions.

* JavaScript numbers are rationals.  `canvas.width` and `canvas.height` are
  non-negative integers, so `canvas.width / 2` is a half-integer; positions are
  arbitrary rationals.
* A `Map` is the list of its entries in insertion order, a `Set` the list of its
  members in insertion order, a parsed JSON object the list of its
  `Object.entries`.
* Inbound messages are typed records.  A field that a handler dereferences and
  that a message can lack is an `Option`; reading through a missing field throws
  a `TypeError`, which is modelled by the `thrown` field of `Outcome`.  The
  record reached at the moment of the throw is kept, as in JavaScript.  A player
  snapshot can be `null` (`none`): it is stored like any other value and makes
  `drawAvatar` throw when it reads `player.avatar`.
* Property lookup in an object literal sees the members inherited from
  `Object.prototype` (`directionMap[keyCode]`).
* `console.*` output, the DOM status widgets (`updateConnectionStatus`,
  `updatePlayerCount`), the pixels painted by `drawWorldMap` / `drawAvatar` and
  the completion of image decoding (`img.onload`) are not modelled; the calls of
  the canvas API (`clearRect`, `drawImage`, ...) are taken to return normally.
-/

namespace GameClient

/-! ## Data model -/

/-- Player snapshot as sent by the server (`playerData`). -/
structure Player where
  id : String
  username : String
  x : ℚ
  y : ℚ
  facing : String
  animationFrame : Nat
  avatar : String
deriving DecidableEq, Repr

/-- Avatar definition as sent by the server (`avatarData`): `frames` maps a
direction to its frame sources; `none` is a definition without `frames`. -/
structure Avatar where
  name : String
  frames : Option (List (String × List String))
deriving DecidableEq, Repr

/-- Value stored in `this.avatarImages`: the object
`{north: [], south: [], east: []}` whose slots are filled as images decode. A
slot is `none` while its image has not been decoded. -/
structure AvatarImages where
  north : List (Option String)
  south : List (Option String)
  east : List (Option String)
deriving DecidableEq, Repr

/-- One `new Image()` whose `src` was assigned inside `loadAvatarImages`. -/
structure ImageLoad where
  avatarName : String
  direction : String
  index : Nat
  src : String
deriving DecidableEq, Repr

/-- Value found by `directionMap[keyCode]`: one of the four strings of the
literal, or the member of `Object.prototype` of that name (a function, or the
prototype object itself for `__proto__`), which the literal inherits. -/
inductive DirectionValue where
  | str (direction : String)
  | inherited (member : String)
deriving DecidableEq, Repr

/-- Messages handed to `ws.send` (before `JSON.stringify`). -/
inductive Command where
  | joinGame (username : String) (avatar : Avatar)
  | move (direction : DirectionValue)
  | stop
deriving DecidableEq, Repr

/-- Values of `WebSocket.readyState`. -/
inductive ReadyState where
  | CONNECTING
  | OPEN
  | CLOSING
  | CLOSED
deriving DecidableEq, Repr

/-- Fields of the `GameClient` object, followed by the effect traces. A roster
value and `myPlayer` are `none` when they are `null`. -/
structure State where
  canvasWidth : Nat
  canvasHeight : Nat
  worldWidth : ℚ
  worldHeight : ℚ
  myPlayerId : Option String
  myPlayer : Option Player
  players : List (String × Option Player)
  avatars : List (String × Avatar)
  avatarImages : List (String × AvatarImages)
  viewportX : ℚ
  viewportY : ℚ
  ws : Option ReadyState
  keysPressed : List String
  isMoving : Bool
  sent : List Command
  redraws : Nat
  imageLoads : List ImageLoad
deriving DecidableEq, Repr

/-- Where a handler stopped: the record it reached, and the exception it threw,
if any. -/
structure Outcome where
  state : State
  thrown : Option String
deriving DecidableEq, Repr

/-- Normal completion. -/
def Outcome.ok (c : State) : Outcome := ⟨c, none⟩

/-- Abrupt completion with a `TypeError`. -/
def Outcome.typeError (c : State) (what : String) : Outcome := ⟨c, some what⟩

/-! ## `Map` and `Set` operations -/

/-- `Map.prototype.get`, also property lookup in a parsed object. -/
def mapGet {α : Type} : List (String × α) → String → Option α
  | [], _ => none
  | (k', v) :: t, k => if k' = k then some v else mapGet t k

/-- `Map.prototype.set`: an existing key keeps its place, a new key goes last. -/
def mapSet {α : Type} : List (String × α) → String → α → List (String × α)
  | [], k, v => [(k, v)]
  | (k', v') :: t, k, v => if k' = k then (k, v) :: t else (k', v') :: mapSet t k v

/-- `Map.prototype.delete`. -/
def mapDelete {α : Type} (m : List (String × α)) (k : String) : List (String × α) :=
  m.filter (fun e => decide (e.1 ≠ k))

/-- `Set.prototype.has`. -/
def setHas (s : List String) (k : String) : Bool := decide (k ∈ s)

/-- `Set.prototype.add`. -/
def setAdd (s : List String) (k : String) : List String :=
  if k ∈ s then s else s ++ [k]

/-- `Set.prototype.delete`. -/
def setDelete (s : List String) (k : String) : List String :=
  s.filter (fun e => decide (e ≠ k))

/-! ## Viewport and drawing -/

/-- `drawAvatars()`: `drawAvatar(player)` for every roster value. `drawAvatar`
starts by reading `player.avatar`, which throws on a `null` value; on any other
value it only paints. -/
def drawAvatars (c : State) : Outcome :=
  if c.players.all (fun entry => entry.2.isSome) then Outcome.ok c
  else Outcome.typeError c "player.avatar"

/-- `drawGame()`: one more redraw, `drawWorldMap()` and then `drawAvatars()`. -/
def drawGame (c : State) : Outcome :=
  drawAvatars { c with redraws := c.redraws + 1 }

/-- `updateViewport()`: centre on `myPlayer`, then clamp to the world. -/
def updateViewport (c : State) : State :=
  match c.myPlayer with
  | none => c
  | some p =>
    let vx : ℚ := p.x - (c.canvasWidth : ℚ) / 2
    let vy : ℚ := p.y - (c.canvasHeight : ℚ) / 2
    { c with
      viewportX := max 0 (min vx (c.worldWidth - (c.canvasWidth : ℚ)))
      viewportY := max 0 (min vy (c.worldHeight - (c.canvasHeight : ℚ))) }

/-- Listener of the window `resize` event installed by `setupCanvas`; an
exception of `drawGame` ends the listener. -/
def onResize (c : State) (innerWidth innerHeight : Nat) : State :=
  (drawGame
    (updateViewport { c with canvasWidth := innerWidth, canvasHeight := innerHeight })).state

/-! ## Inbound messages -/

/-- Message with `action: 'join_game'`. -/
structure JoinGameMessage where
  success : Bool
  playerId : Option String
  players : Option (List (String × Option Player))
  avatars : Option (List (String × Avatar))
deriving DecidableEq, Repr

/-- Message with `action: 'player_joined'`. -/
structure PlayerJoinedMessage where
  player : Option Player
  avatar : Option Avatar
deriving DecidableEq, Repr

/-- Message with `action: 'players_moved'`. -/
structure PlayersMovedMessage where
  players : Option (List (String × Option Player))
deriving DecidableEq, Repr

/-- Message with `action: 'player_left'`. -/
structure PlayerLeftMessage where
  playerId : Option String
deriving DecidableEq, Repr

/-- Parsed message, by the value of `message.action`; `other` is any value that
matches no `case` of `handleServerMessage`, `undefined` included. -/
inductive ServerMessage where
  | join_game (message : JoinGameMessage)
  | player_joined (message : PlayerJoinedMessage)
  | players_moved (message : PlayersMovedMessage)
  | player_left (message : PlayerLeftMessage)
  | other (action : Option String)
deriving DecidableEq, Repr

/-- Content of `event.data`: text on which `JSON.parse` throws, the text `null`
(which parses, to a value without properties), or the text of a message. -/
inductive Payload where
  | unparsable (text : String)
  | null
  | parsed (message : ServerMessage)
deriving DecidableEq, Repr

/-! ## Roster handlers -/

/-- The two nested `forEach` of `loadAvatarImages`: the image loads started for
the frames of an avatar, direction by direction, frame by frame. -/
def frameLoads (avatarName : String) (frames : List (String × List String)) : List ImageLoad :=
  (frames.map (fun entry =>
    entry.2.enum.map (fun frame =>
      ({ avatarName := avatarName, direction := entry.1,
         index := frame.1, src := frame.2 } : ImageLoad)))).flatten

/-- `loadAvatarImages(avatarName, avatarData)`: one image load per frame, then
the fresh, still empty frame object is stored under `avatarName`. -/
def loadAvatarImages (c : State) (avatarName : String) (avatarData : Avatar) : Outcome :=
  let avatarImages : AvatarImages := { north := [], south := [], east := [] }
  match avatarData.frames with
  | none => Outcome.typeError c "Object.keys(avatarData.frames)"
  | some frames =>
    Outcome.ok { c with
      imageLoads := c.imageLoads ++ frameLoads avatarName frames
      avatarImages := mapSet c.avatarImages avatarName avatarImages }

/-- Body of the first loop of `handleJoinGameSuccess`. -/
def storePlayer (c : State) (entry : String × Option Player) : State :=
  let c1 := { c with players := mapSet c.players entry.1 entry.2 }
  if some entry.1 = c1.myPlayerId then { c1 with myPlayer := entry.2 } else c1

/-- Second loop of `handleJoinGameSuccess`; it stops at the first throw. -/
def storeAvatars : State → List (String × Avatar) → Outcome
  | c, [] => Outcome.ok c
  | c, (avatarName, avatarData) :: rest =>
    let r := loadAvatarImages { c with avatars := mapSet c.avatars avatarName avatarData }
      avatarName avatarData
    match r.thrown with
    | some _ => r
    | none => storeAvatars r.state rest

/-- `handleJoinGameSuccess(message)`. -/
def handleJoinGameSuccess (c : State) (message : JoinGameMessage) : Outcome :=
  let c1 := { c with myPlayerId := message.playerId }
  match message.players with
  | none => Outcome.typeError c1 "Object.entries(message.players)"
  | some players =>
    let c2 := players.foldl storePlayer c1
    match message.avatars with
    | none => Outcome.typeError c2 "Object.entries(message.avatars)"
    | some avatars =>
      let r := storeAvatars c2 avatars
      match r.thrown with
      | some _ => r
      | none => drawGame (updateViewport r.state)

/-- `handlePlayerJoined(message)`. -/
def handlePlayerJoined (c : State) (message : PlayerJoinedMessage) : Outcome :=
  match message.player with
  | none => Outcome.typeError c "message.player.id"
  | some player =>
    let c1 := { c with players := mapSet c.players player.id (some player) }
    match message.avatar with
    | none => Outcome.typeError c1 "message.avatar.name"
    | some avatar =>
      let r := loadAvatarImages { c1 with avatars := mapSet c1.avatars avatar.name avatar }
        avatar.name avatar
      match r.thrown with
      | some _ => r
      | none => drawGame r.state

/-- Body of the loop of `handlePlayersMoved`. -/
def movePlayer (c : State) (entry : String × Option Player) : State :=
  { c with players := mapSet c.players entry.1 entry.2 }

/-- `handlePlayersMoved(message)`. -/
def handlePlayersMoved (c : State) (message : PlayersMovedMessage) : Outcome :=
  match message.players with
  | none => Outcome.typeError c "Object.entries(message.players)"
  | some players => drawGame (players.foldl movePlayer c)

/-- `handlePlayerLeft(message)`. -/
def handlePlayerLeft (c : State) (message : PlayerLeftMessage) : Outcome :=
  match message.playerId with
  | none => drawGame c
  | some playerId => drawGame { c with players := mapDelete c.players playerId }

/-- `handleServerMessage(message)`. -/
def handleServerMessage (c : State) : ServerMessage → Outcome
  | ServerMessage.join_game message =>
    if message.success then handleJoinGameSuccess c message else Outcome.ok c
  | ServerMessage.player_joined message => handlePlayerJoined c message
  | ServerMessage.players_moved message => handlePlayersMoved c message
  | ServerMessage.player_left message => handlePlayerLeft c message
  | ServerMessage.other _ => Outcome.ok c

/-- Body of the `try` block of `ws.onmessage`. -/
def parseAndHandle (c : State) : Payload → Outcome
  | Payload.unparsable _ => Outcome.typeError c "JSON.parse(event.data)"
  | Payload.null => Outcome.typeError c "message.action"
  | Payload.parsed message => handleServerMessage c message

/-- `ws.onmessage`: the `catch` clause logs and goes on with the record as the
`try` block left it. -/
def onmessage (c : State) (payload : Payload) : State :=
  (parseAndHandle c payload).state

/-! ## Connection -/

/-- Frame source used nine times by `joinGame`. -/
def pixel : String :=
  "data:image/png;base64,iVBORw0KGgoAAAANSUhEUgAAAAEAAAABCAYAAAAfFcSJAAAADUlEQVR42mNkYPhfDwAChwGA60e6kgAAAABJRU5ErkJggg=="

/-- The `avatar` of `joinMessage`. -/
def defaultAvatar : Avatar :=
  { name := "default_avatar"
    frames := some [("north", [pixel, pixel, pixel]), ("south", [pixel, pixel, pixel]),
      ("east", [pixel, pixel, pixel])] }

/-- `joinGame()`. -/
def joinGame (c : State) : State :=
  { c with sent := c.sent ++ [Command.joinGame "Beamlak" defaultAvatar] }

/-- `connectToServer()`: `this.ws` is a new socket, not yet open. -/
def connectToServer (c : State) : State :=
  { c with ws := some ReadyState.CONNECTING }

/-- `ws.onopen`; the socket is open when it runs. -/
def onopen (c : State) : State :=
  joinGame { c with ws := some ReadyState.OPEN }

/-- `ws.onclose`; the socket is closed when it runs. The reconnect is the timer
callback `onReconnectTimer`. -/
def onclose (c : State) : State :=
  { c with ws := some ReadyState.CLOSED }

/-- Callback of the `setTimeout` of `ws.onclose`. -/
def onReconnectTimer (c : State) : State :=
  connectToServer c

/-- `new GameClient()` in a window of the given inner size: the field
initialisers, then `init()`. -/
def create (innerWidth innerHeight : Nat) : State :=
  connectToServer
    { canvasWidth := innerWidth
      canvasHeight := innerHeight
      worldWidth := 2048
      worldHeight := 2048
      myPlayerId := none
      myPlayer := none
      players := []
      avatars := []
      avatarImages := []
      viewportX := 0
      viewportY := 0
      ws := none
      keysPressed := []
      isMoving := false
      sent := []
      redraws := 0
      imageLoads := [] }

/-! ## Keyboard -/

/-- Names of the members of `Object.prototype` (ECMAScript, Annex B included).
Each is truthy: a function, or for `__proto__` the prototype object. -/
def objectPrototypeMembers : List String :=
  ["constructor", "__defineGetter__", "__defineSetter__", "hasOwnProperty",
    "__lookupGetter__", "__lookupSetter__", "isPrototypeOf", "propertyIsEnumerable",
    "toString", "valueOf", "__proto__", "toLocaleString"]

/-- `directionMap[keyCode]` of `handleKeyPress`; `none` is `undefined`. The four
own properties of the literal come first, then what it inherits. -/
def directionMap (keyCode : String) : Option DirectionValue :=
  if keyCode = "ArrowUp" then some (DirectionValue.str "up")
  else if keyCode = "ArrowDown" then some (DirectionValue.str "down")
  else if keyCode = "ArrowLeft" then some (DirectionValue.str "left")
  else if keyCode = "ArrowRight" then some (DirectionValue.str "right")
  else if keyCode ∈ objectPrototypeMembers then some (DirectionValue.inherited keyCode)
  else none

/-- `movementKeys` of `handleKeyRelease`. -/
def movementKeys : List String := ["ArrowUp", "ArrowDown", "ArrowLeft", "ArrowRight"]

/-- `sendMoveCommand(direction)`. -/
def sendMoveCommand (c : State) (direction : DirectionValue) : State :=
  { c with sent := c.sent ++ [Command.move direction], isMoving := true }

/-- `sendStopCommand()`. -/
def sendStopCommand (c : State) : State :=
  { c with sent := c.sent ++ [Command.stop], isMoving := false }

/-- `handleKeyPress(keyCode)`. -/
def handleKeyPress (c : State) (keyCode : String) : State :=
  if c.ws ≠ some ReadyState.OPEN then c
  else
    match directionMap keyCode with
    | some direction => sendMoveCommand c direction
    | none => c

/-- `handleKeyRelease()`. -/
def handleKeyRelease (c : State) : State :=
  if c.ws ≠ some ReadyState.OPEN then c
  else
    let anyMovementKeyPressed := movementKeys.any (fun key => setHas c.keysPressed key)
    if !anyMovementKeyPressed && c.isMoving then sendStopCommand c else c

/-- First `keydown` listener of `setupKeyboardControls`. -/
def onKeydown (c : State) (code : String) : State :=
  if setHas c.keysPressed code then c
  else handleKeyPress { c with keysPressed := setAdd c.keysPressed code } code

/-- The `keyup` listener of `setupKeyboardControls`. -/
def onKeyup (c : State) (code : String) : State :=
  handleKeyRelease { c with keysPressed := setDelete c.keysPressed code }

/-! ## Events -/

/-- Events delivered to the client. -/
inductive Event where
  | keydown (code : String)
  | keyup (code : String)
  | wsOpen
  | wsClose
  | reconnectTimer
  | wsMessage (payload : Payload)
  | resize (innerWidth innerHeight : Nat)
deriving DecidableEq, Repr

/-- Reaction of the client to one event. -/
def step (c : State) : Event → State
  | Event.keydown code => onKeydown c code
  | Event.keyup code => onKeyup c code
  | Event.wsOpen => onopen c
  | Event.wsClose => onclose c
  | Event.reconnectTimer => onReconnectTimer c
  | Event.wsMessage payload => onmessage c payload
  | Event.resize w h => onResize c w h

/-- Reaction to a sequence of events, in delivery order. -/
def run (c : State) (events : List Event) : State :=
  events.foldl step c

/-- The `players_moved` messages of a list, handled one after the other. -/
def applyPlayersMoved (c : State) (messages : List PlayersMovedMessage) : State :=
  messages.foldl (fun s m => (handlePlayersMoved s m).state) c

/-- A `players_moved` message carrying the given `players` mapping. -/
def movedMessage (players : List (String × Option Player)) : PlayersMovedMessage :=
  { players := some players }

/-- Storing the entries of an object one by one, as the `for ... of
Object.entries(...)` loops do. -/
def setAll {α : Type} (m : List (String × α)) (entries : List (String × α)) :
    List (String × α) :=
  entries.foldl (fun acc e => mapSet acc e.1 e.2) m

/-- A successful `join_game` message with all its fields. -/
def joinMessage (playerId : Option String) (players : List (String × Option Player))
    (avatars : List (String × Avatar)) : JoinGameMessage :=
  { success := true, playerId := playerId, players := some players, avatars := some avatars }

/-- Value of `this.myPlayer` after the first loop of `handleJoinGameSuccess`. -/
def localPlayerAfter (myPlayerId : Option String) (myPlayer : Option Player)
    (entries : List (String × Option Player)) : Option Player :=
  entries.foldl (fun mp e => if some e.1 = myPlayerId then e.2 else mp) myPlayer

/-- Frame objects and image loads after the second loop of `handleJoinGameSuccess`
when every avatar has `frames`. -/
def avatarsLoaded : List (String × AvatarImages) → List ImageLoad → List (String × Avatar) →
    List (String × AvatarImages) × List ImageLoad
  | images, loads, [] => (images, loads)
  | images, loads, (avatarName, avatarData) :: rest =>
    avatarsLoaded (mapSet images avatarName { north := [], south := [], east := [] })
      (loads ++ frameLoads avatarName (avatarData.frames.getD [])) rest

/-! ## Keyboard event sequences -/

/-- Keyboard event, with its `event.code`. -/
inductive KeyEvent where
  | down (code : String)
  | up (code : String)
deriving DecidableEq, Repr

/-- Keyboard event as an event of the client. -/
def KeyEvent.toEvent : KeyEvent → Event
  | KeyEvent.down code => Event.keydown code
  | KeyEvent.up code => Event.keyup code

/-- Reaction to a sequence of keyboard events, no other event in between. -/
def runKeys (c : State) (events : List KeyEvent) : State :=
  run c (events.map KeyEvent.toEvent)

/-- Number of `move` commands with the given direction among the sent ones. -/
def countMoves (direction : DirectionValue) (sent : List Command) : Nat :=
  sent.count (Command.move direction)

/-- Number of `stop` commands among the sent ones. -/
def countStops (sent : List Command) : Nat :=
  sent.count Command.stop

/-- Whether `key` is held after a sequence of keyboard events, given whether it
was held before: held after its key-down, not held after its key-up. -/
def heldAfter (key : String) : Bool → List KeyEvent → Bool
  | held, [] => held
  | held, KeyEvent.down code :: rest => heldAfter key (if code = key then true else held) rest
  | held, KeyEvent.up code :: rest => heldAfter key (if code = key then false else held) rest

/-- Number of press-and-hold episodes of `key` in a sequence of keyboard events,
given whether it was held before: an episode starts at a key-down of `key` that
arrives while `key` is not held. -/
def pressEpisodes (key : String) : Bool → List KeyEvent → Nat
  | _, [] => 0
  | held, KeyEvent.down code :: rest =>
    if code = key then (if held then 0 else 1) + pressEpisodes key true rest
    else pressEpisodes key held rest
  | held, KeyEvent.up code :: rest =>
    if code = key then pressEpisodes key false rest else pressEpisodes key held rest

/-- A `player_joined` message with both its fields. -/
def joinedMessage (player : Player) (avatar : Avatar) : PlayerJoinedMessage :=
  { player := some player, avatar := some avatar }

/-! ## Sample data -/

/-- Player `id` standing at `(x, y)`, with avatar `a`. -/
def samplePlayer (id : String) (x y : ℚ) : Player :=
  { id := id, username := id, x := x, y := y, facing := "south", animationFrame := 0,
    avatar := "a" }

/-- Avatar `a` with one frame per direction. -/
def sampleAvatar : Avatar :=
  { name := "a", frames := some [("north", ["f0"]), ("south", ["f0"]), ("east", ["f0"])] }

/-- Successful `join_game` for local player `p1` at `(x, y)`, alone in the roster. -/
def sampleJoin (x y : ℚ) : JoinGameMessage :=
  { success := true, playerId := some "p1",
    players := some [("p1", some (samplePlayer "p1" x y))],
    avatars := some [("a", sampleAvatar)] }

/-- A client in an 800 x 600 window that has connected and joined as `p1` at
`(100, 100)`. -/
def joinedClient : State :=
  run (create 800 600)
    [Event.wsOpen, Event.wsMessage (Payload.parsed (ServerMessage.join_game (sampleJoin 100 100)))]

/-- Successful `join_game` of a later session: local player `p9` with avatar `b`. -/
def sampleRejoin : JoinGameMessage :=
  { success := true, playerId := some "p9",
    players := some [("p9", some { samplePlayer "p9" 300 300 with avatar := "b" })],
    avatars := some [("b", { sampleAvatar with name := "b" })] }

/-- The client `joinedClient` after its socket closed and it reconnected, before
the server answers the new join request. -/
def reconnectedClient : State :=
  run joinedClient [Event.wsClose, Event.reconnectTimer, Event.wsOpen]

/-- A `join_game` message with `success: true` and a `players` mapping, with
`p1` at `(1000, 1000)`, but no `avatars` mapping. -/
def joinWithoutAvatars : JoinGameMessage :=
  { success := true, playerId := some "p1",
    players := some [("p1", some (samplePlayer "p1" 1000 1000))], avatars := none }

/-- A `join_game` message with all its fields in which the snapshot of `p2` is
`null`. -/
def joinWithNullSnapshot : JoinGameMessage :=
  { success := true, playerId := some "p1",
    players := some [("p1", some (samplePlayer "p1" 1000 1000)), ("p2", none)],
    avatars := some [("a", sampleAvatar)] }

/-- A `player_joined` message without `avatar`. -/
def joinedWithoutAvatar : ServerMessage :=
  ServerMessage.player_joined { player := some (samplePlayer "p2" 200 200), avatar := none }

/-- The client `joinedClient` once the three frames of avatar `a` have decoded:
each `onload` callback has put its image in its slot. -/
def decodedClient : State :=
  { joinedClient with
    avatarImages := [("a", { north := [some "f0"], south := [some "f0"], east := [some "f0"] })] }

/-- Another definition under the avatar name `a`. -/
def otherAvatar : Avatar :=
  { name := "a", frames := some [("north", ["g0", "g1"]), ("south", ["g0"]), ("east", ["g0"])] }

/-- The keys of a parsed object or of a `Map`. -/
def keys {α : Type} (m : List (String × α)) : List String := m.map Prod.fst

end GameClient

namespace GameClient

/-! ## Lemmas on maps -/

theorem mapGet_mapSet {α : Type} (m : List (String × α)) (k : String) (v : α) (k' : String) :
    mapGet (mapSet m k v) k' = if k = k' then some v else mapGet m k' := by
  induction m with
  | nil => simp [mapSet, mapGet]
  | cons e t ih =>
    obtain ⟨a, b⟩ := e
    by_cases hak : a = k
    · subst hak
      by_cases hak' : a = k' <;> simp [mapSet, mapGet, hak']
    · by_cases hak' : a = k'
      · subst hak'
        have hne : ¬ k = a := fun h => hak h.symm
        simp [mapSet, mapGet, hak, hne]
      · simp [mapSet, mapGet, hak, hak', ih]

theorem mapGet_eq_none_of_not_mem {α : Type} (m : List (String × α)) (k : String)
    (h : k ∉ keys m) : mapGet m k = none := by
  induction m with
  | nil => rfl
  | cons e t ih =>
    obtain ⟨a, b⟩ := e
    simp only [keys, List.map_cons, List.mem_cons, not_or] at h
    have hne : ¬ a = k := fun h' => h.1 h'.symm
    simp only [mapGet, hne, if_false]
    exact ih h.2

theorem mapGet_setAll_of_not_mem {α : Type} (entries m : List (String × α)) (k : String)
    (h : k ∉ keys entries) : mapGet (setAll m entries) k = mapGet m k := by
  induction entries generalizing m with
  | nil => rfl
  | cons e t ih =>
    simp only [keys, List.map_cons, List.mem_cons, not_or] at h
    have hne : ¬ e.1 = k := fun h' => h.1 h'.symm
    have := ih (mapSet m e.1 e.2) h.2
    simp only [setAll, List.foldl_cons] at this ⊢
    rw [this, mapGet_mapSet, if_neg hne]

theorem mapGet_setAll {α : Type} (entries m : List (String × α)) (k : String)
    (hnd : (keys entries).Nodup) :
    mapGet (setAll m entries) k =
      match mapGet entries k with
      | some v => some v
      | none => mapGet m k := by
  induction entries generalizing m with
  | nil => rfl
  | cons e t ih =>
    obtain ⟨a, b⟩ := e
    simp only [keys, List.map_cons, List.nodup_cons] at hnd
    have := ih (mapSet m a b) hnd.2
    simp only [setAll, List.foldl_cons] at this ⊢
    rw [this, mapGet_mapSet]
    by_cases hak : a = k
    · subst hak
      rw [mapGet_eq_none_of_not_mem t a hnd.1]
      simp [mapGet]
    · simp [mapGet, hak]

/-! ## Lemmas on drawing -/

theorem drawGame_state (c : State) :
    (drawGame c).state = { c with redraws := c.redraws + 1 } := by
  unfold drawGame drawAvatars
  split <;> rfl

theorem drawGame_thrown_of_no_null (c : State) (h : ∀ e ∈ c.players, e.2 ≠ none) :
    (drawGame c).thrown = none := by
  have hall : c.players.all (fun entry => entry.2.isSome) = true := by
    rw [List.all_eq_true]
    intro e he
    exact Option.isSome_iff_ne_none.mpr (h e he)
  unfold drawGame drawAvatars
  simp only [hall, if_true, Outcome.ok]

theorem drawGame_thrown_of_null (c : State) (e : String × Option Player)
    (he : e ∈ c.players) (hnull : e.2 = none) : (drawGame c).thrown ≠ none := by
  have hall : ¬ c.players.all (fun entry => entry.2.isSome) = true := by
    rw [List.all_eq_true]
    intro h
    have := h e he
    rw [hnull] at this
    cases this
  unfold drawGame drawAvatars
  simp [hall, Outcome.typeError]

theorem updateViewport_players (c : State) : (updateViewport c).players = c.players := by
  unfold updateViewport
  cases c.myPlayer <;> rfl

/-! ## Lemmas on the roster handlers -/

theorem foldl_movePlayer (entries : List (String × Option Player)) (c : State) :
    entries.foldl movePlayer c = { c with players := setAll c.players entries } := by
  induction entries generalizing c with
  | nil => rfl
  | cons e t ih =>
    simp only [List.foldl_cons, ih, setAll]
    rfl

theorem handlePlayersMoved_state (c : State) (entries : List (String × Option Player)) :
    (handlePlayersMoved c (movedMessage entries)).state =
      { c with players := setAll c.players entries, redraws := c.redraws + 1 } := by
  simp only [handlePlayersMoved, movedMessage, drawGame_state, foldl_movePlayer]

theorem applyPlayersMoved_of_not_mem (snaps : List (List (String × Option Player)))
    (c : State) (id : String) (h : ∀ s ∈ snaps, id ∉ keys s) :
    mapGet (applyPlayersMoved c (snaps.map movedMessage)).players id = mapGet c.players id := by
  induction snaps generalizing c with
  | nil => rfl
  | cons s t ih =>
    have h1 := ih (handlePlayersMoved c (movedMessage s)).state
      (fun x hx => h x (List.mem_cons_of_mem _ hx))
    simp only [applyPlayersMoved, List.map_cons, List.foldl_cons] at h1 ⊢
    rw [h1, handlePlayersMoved_state]
    exact mapGet_setAll_of_not_mem s c.players id (h s (List.mem_cons_self _ _))

theorem applyPlayersMoved_append (c : State) (l1 l2 : List PlayersMovedMessage) :
    applyPlayersMoved c (l1 ++ l2) = applyPlayersMoved (applyPlayersMoved c l1) l2 := by
  simp [applyPlayersMoved, List.foldl_append]

theorem foldl_storePlayer (entries : List (String × Option Player)) (c : State) :
    entries.foldl storePlayer c =
      { c with
        players := setAll c.players entries
        myPlayer := localPlayerAfter c.myPlayerId c.myPlayer entries } := by
  induction entries generalizing c with
  | nil => rfl
  | cons e t ih =>
    simp only [List.foldl_cons, ih, setAll, localPlayerAfter]
    by_cases h : some e.1 = c.myPlayerId <;> simp [storePlayer, h]

theorem localPlayerAfter_of_not_mem (entries : List (String × Option Player)) (L : String)
    (mp : Option Player) (h : L ∉ keys entries) :
    localPlayerAfter (some L) mp entries = mp := by
  induction entries generalizing mp with
  | nil => rfl
  | cons e t ih =>
    simp only [keys, List.map_cons, List.mem_cons, not_or] at h
    have hne : ¬ e.1 = L := fun h' => h.1 h'.symm
    have := ih (if some e.1 = some L then e.2 else mp) h.2
    simp only [localPlayerAfter, List.foldl_cons] at this ⊢
    rw [this]
    simp [hne]

theorem localPlayerAfter_of_mapGet (entries : List (String × Option Player)) (L : String)
    (mp : Option Player) (v : Option Player) (hnd : (keys entries).Nodup)
    (h : mapGet entries L = some v) : localPlayerAfter (some L) mp entries = v := by
  induction entries generalizing mp with
  | nil => cases h
  | cons e t ih =>
    obtain ⟨a, b⟩ := e
    simp only [keys, List.map_cons, List.nodup_cons] at hnd
    by_cases hak : a = L
    · subst hak
      simp only [mapGet, if_true, Option.some.injEq] at h
      subst h
      have := localPlayerAfter_of_not_mem t a b hnd.1
      simp only [localPlayerAfter, List.foldl_cons] at this ⊢
      simpa using this
    · simp only [mapGet, hak, if_false] at h
      have := ih (if some a = some L then b else mp) hnd.2 h
      simp only [localPlayerAfter, List.foldl_cons] at this ⊢
      exact this

theorem storeAvatars_of_frames (avatars : List (String × Avatar)) (c : State)
    (hf : ∀ e ∈ avatars, e.2.frames ≠ none) :
    storeAvatars c avatars =
      Outcome.ok { c with
        avatars := setAll c.avatars avatars
        avatarImages := (avatarsLoaded c.avatarImages c.imageLoads avatars).1
        imageLoads := (avatarsLoaded c.avatarImages c.imageLoads avatars).2 } := by
  induction avatars generalizing c with
  | nil => rfl
  | cons e t ih =>
    obtain ⟨n, a⟩ := e
    have hne : a.frames ≠ none := hf (n, a) (List.mem_cons_self _ _)
    obtain ⟨fr, hfr⟩ := Option.ne_none_iff_exists'.mp hne
    have ht : ∀ e ∈ t, e.2.frames ≠ none := fun x hx => hf x (List.mem_cons_of_mem _ hx)
    simp only [storeAvatars, loadAvatarImages, hfr, Outcome.ok]
    rw [ih _ ht]
    simp [setAll, avatarsLoaded, hfr, Outcome.ok]

theorem handleJoinGameSuccess_of_frames (c : State) (playerId : Option String)
    (players : List (String × Option Player)) (avatars : List (String × Avatar))
    (hf : ∀ e ∈ avatars, e.2.frames ≠ none) :
    handleJoinGameSuccess c (joinMessage playerId players avatars) =
      drawGame (updateViewport { c with
        myPlayerId := playerId
        players := setAll c.players players
        myPlayer := localPlayerAfter playerId c.myPlayer players
        avatars := setAll c.avatars avatars
        avatarImages := (avatarsLoaded c.avatarImages c.imageLoads avatars).1
        imageLoads := (avatarsLoaded c.avatarImages c.imageLoads avatars).2 }) := by
  simp only [handleJoinGameSuccess, joinMessage, foldl_storePlayer,
    storeAvatars_of_frames avatars _ hf, Outcome.ok]

end GameClient

namespace GameClient

/-! ## Lemmas on the keyboard handlers -/

theorem directionMap_eq_none (key : String) (h : key ∉ movementKeys)
    (hp : key ∉ objectPrototypeMembers) : directionMap key = none := by
  simp only [movementKeys, List.mem_cons, List.mem_singleton, List.not_mem_nil, or_false,
    not_or] at h
  simp [directionMap, h.1, h.2.1, h.2.2.1, h.2.2.2, hp]

theorem directionMap_of_mem (key : String) (h : key ∈ movementKeys) :
    ∃ d, directionMap key = some (DirectionValue.str d) := by
  simp only [movementKeys, List.mem_cons, List.mem_singleton, List.not_mem_nil, or_false] at h
  rcases h with rfl | rfl | rfl | rfl
  · exact ⟨"up", by decide⟩
  · exact ⟨"down", by decide⟩
  · exact ⟨"left", by decide⟩
  · exact ⟨"right", by decide⟩

theorem directionMap_some_cases (key : String) (v : DirectionValue)
    (h : directionMap key = some v) : key ∈ movementKeys ∨ key ∈ objectPrototypeMembers := by
  by_contra hno
  rw [not_or] at hno
  rw [directionMap_eq_none key hno.1 hno.2] at h
  cases h

theorem directionMap_injective (k1 k2 : String) (v : DirectionValue)
    (h1 : directionMap k1 = some v) (h2 : directionMap k2 = some v) : k1 = k2 := by
  unfold directionMap at h1 h2
  split_ifs at h1 h2 <;> simp only [Option.some.injEq, reduceCtorEq] at h1 h2 <;>
    subst h1 <;>
    first
      | (subst_vars; rfl)
      | (injection h2 with h2; exact h2.symm)
      | (exfalso; revert h2; decide)
      | (exfalso; cases h2)

theorem anyMovementKey_iff (ks : List String) :
    movementKeys.any (fun key => setHas ks key) = true ↔ ∃ a ∈ movementKeys, a ∈ ks := by
  simp [setHas, List.any_eq_true]

theorem onKeydown_of_mem (c : State) (key : String) (h : key ∈ c.keysPressed) :
    onKeydown c key = c := by
  simp [onKeydown, setHas, h]

theorem onKeydown_of_direction (c : State) (key : String) (d : DirectionValue)
    (hws : c.ws = some ReadyState.OPEN)
    (h : key ∉ c.keysPressed) (hd : directionMap key = some d) :
    onKeydown c key =
      { c with
        keysPressed := c.keysPressed ++ [key]
        sent := c.sent ++ [Command.move d]
        isMoving := true } := by
  simp [onKeydown, setHas, setAdd, h, handleKeyPress, hws, hd, sendMoveCommand]

theorem onKeydown_of_no_direction (c : State) (key : String)
    (h : key ∉ c.keysPressed) (hd : directionMap key = none) :
    onKeydown c key = { c with keysPressed := c.keysPressed ++ [key] } := by
  by_cases hws : c.ws = some ReadyState.OPEN <;>
    simp [onKeydown, setHas, setAdd, h, handleKeyPress, hws, hd]

theorem onKeydown_ws (c : State) (key : String) : (onKeydown c key).ws = c.ws := by
  by_cases h : key ∈ c.keysPressed
  · rw [onKeydown_of_mem c key h]
  · by_cases hws : c.ws = some ReadyState.OPEN
    · cases hd : directionMap key with
      | none => rw [onKeydown_of_no_direction c key h hd]
      | some d => rw [onKeydown_of_direction c key d hws h hd]
    · simp [onKeydown, setHas, setAdd, h, handleKeyPress, hws]

theorem onKeyup_stop (c : State) (key : String) (hws : c.ws = some ReadyState.OPEN)
    (hm : c.isMoving = true) (hn : ∀ a ∈ movementKeys, a ∉ setDelete c.keysPressed key) :
    onKeyup c key =
      { c with
        keysPressed := setDelete c.keysPressed key
        sent := c.sent ++ [Command.stop]
        isMoving := false } := by
  have hany : movementKeys.any (fun k => setHas (setDelete c.keysPressed key) k) = false := by
    rw [Bool.eq_false_iff]
    intro h
    obtain ⟨a, ha, hmem⟩ := (anyMovementKey_iff _).mp h
    exact hn a ha hmem
  simp [onKeyup, handleKeyRelease, hws, hany, hm, sendStopCommand]

theorem onKeyup_quiet (c : State) (key : String)
    (h : ¬ (c.ws = some ReadyState.OPEN ∧ c.isMoving = true ∧
      ∀ a ∈ movementKeys, a ∉ setDelete c.keysPressed key)) :
    onKeyup c key = { c with keysPressed := setDelete c.keysPressed key } := by
  by_cases hws : c.ws = some ReadyState.OPEN
  · by_cases hany : movementKeys.any (fun k => setHas (setDelete c.keysPressed key) k) = true
    · simp [onKeyup, handleKeyRelease, hws, hany]
    · by_cases hm : c.isMoving = true
      · exfalso
        apply h
        refine ⟨hws, hm, ?_⟩
        intro a ha hmem
        exact hany ((anyMovementKey_iff _).mpr ⟨a, ha, hmem⟩)
      · simp [onKeyup, handleKeyRelease, hws, hm]
  · simp [onKeyup, handleKeyRelease, hws]

theorem onKeyup_ws (c : State) (key : String) : (onKeyup c key).ws = c.ws := by
  by_cases h : c.ws = some ReadyState.OPEN ∧ c.isMoving = true ∧
      ∀ a ∈ movementKeys, a ∉ setDelete c.keysPressed key
  · rw [onKeyup_stop c key h.1 h.2.1 h.2.2]
  · rw [onKeyup_quiet c key h]

theorem onKeyup_keysPressed (c : State) (key : String) :
    (onKeyup c key).keysPressed = setDelete c.keysPressed key := by
  by_cases h : c.ws = some ReadyState.OPEN ∧ c.isMoving = true ∧
      ∀ a ∈ movementKeys, a ∉ setDelete c.keysPressed key
  · rw [onKeyup_stop c key h.1 h.2.1 h.2.2]
  · rw [onKeyup_quiet c key h]

theorem mem_setDelete (ks : List String) (key a : String) :
    a ∈ setDelete ks key ↔ a ∈ ks ∧ a ≠ key := by
  simp [setDelete]

theorem runKeys_cons (c : State) (e : KeyEvent) (rest : List KeyEvent) :
    runKeys c (e :: rest) = runKeys (step c e.toEvent) rest := rfl

/-! ## Lemmas on keyboard event sequences -/

theorem onKeydown_keysPressed (c : State) (key : String) :
    (onKeydown c key).keysPressed = setAdd c.keysPressed key := by
  by_cases h : key ∈ c.keysPressed
  · rw [onKeydown_of_mem c key h]
    simp [setAdd, h]
  · by_cases hws : c.ws = some ReadyState.OPEN
    · cases hd : directionMap key with
      | none => rw [onKeydown_of_no_direction c key h hd]; simp [setAdd, h]
      | some d => rw [onKeydown_of_direction c key d hws h hd]; simp [setAdd, h]
    · simp [onKeydown, setHas, setAdd, h, handleKeyPress, hws]

theorem mem_setAdd (ks : List String) (key a : String) :
    a ∈ setAdd ks key ↔ a ∈ ks ∨ a = key := by
  by_cases h : key ∈ ks
  · simp only [setAdd, h, if_true]
    constructor
    · exact Or.inl
    · rintro (h' | rfl)
      · exact h'
      · exact h
  · simp [setAdd, h]

theorem runKeys_ws (events : List KeyEvent) (c : State) : (runKeys c events).ws = c.ws := by
  induction events generalizing c with
  | nil => rfl
  | cons e t ih =>
    rw [runKeys_cons, ih]
    cases e with
    | down code => exact onKeydown_ws c code
    | up code => exact onKeyup_ws c code

theorem heldAfter_iff_mem (key : String) (events : List KeyEvent) (c : State) :
    heldAfter key (decide (key ∈ c.keysPressed)) events = true ↔
      key ∈ (runKeys c events).keysPressed := by
  induction events generalizing c with
  | nil => simp [heldAfter, runKeys, run]
  | cons e t ih =>
    rw [runKeys_cons, ← ih]
    cases e with
    | down code =>
      have hk : decide (key ∈ (step c (KeyEvent.down code).toEvent).keysPressed) =
          (if code = key then true else decide (key ∈ c.keysPressed)) := by
        show decide (key ∈ (onKeydown c code).keysPressed) = _
        rw [onKeydown_keysPressed]
        by_cases hc : code = key
        · subst hc
          simp [mem_setAdd]
        · have hc' : ¬ key = code := fun h => hc h.symm
          simp [mem_setAdd, hc, hc']
      simp only [heldAfter, hk]
    | up code =>
      have hk : decide (key ∈ (step c (KeyEvent.up code).toEvent).keysPressed) =
          (if code = key then false else decide (key ∈ c.keysPressed)) := by
        show decide (key ∈ (onKeyup c code).keysPressed) = _
        rw [onKeyup_keysPressed]
        by_cases hc : code = key
        · subst hc
          simp [mem_setDelete]
        · have hc' : ¬ key = code := fun h => hc h.symm
          simp [mem_setDelete, hc, hc']
      simp only [heldAfter, hk]

theorem onKeyup_countMoves (c : State) (key : String) (d : DirectionValue) :
    countMoves d (onKeyup c key).sent = countMoves d c.sent := by
  by_cases h : c.ws = some ReadyState.OPEN ∧ c.isMoving = true ∧
      ∀ a ∈ movementKeys, a ∉ setDelete c.keysPressed key
  · rw [onKeyup_stop c key h.1 h.2.1 h.2.2]
    simp [countMoves, List.count_append]
  · rw [onKeyup_quiet c key h]

theorem countMoves_runKeys (key : String) (d : DirectionValue)
    (hd : directionMap key = some d)
    (events : List KeyEvent) (c : State) (hws : c.ws = some ReadyState.OPEN) :
    countMoves d (runKeys c events).sent =
      countMoves d c.sent + pressEpisodes key (decide (key ∈ c.keysPressed)) events := by
  induction events generalizing c with
  | nil => simp [pressEpisodes, runKeys, run]
  | cons e t ih =>
    rw [runKeys_cons]
    cases e with
    | down code =>
      have hws' : (onKeydown c code).ws = some ReadyState.OPEN := by rw [onKeydown_ws, hws]
      have h1 := ih (onKeydown c code) hws'
      show countMoves d (runKeys (onKeydown c code) t).sent = _
      rw [h1]
      by_cases hmem : code ∈ c.keysPressed
      · rw [onKeydown_of_mem c code hmem]
        by_cases hc : code = key
        · subst hc
          simp [pressEpisodes, hmem]
        · simp [pressEpisodes, hc]
      · by_cases hc : code = key
        · subst hc
          rw [onKeydown_of_direction c code d hws hmem hd]
          simp [pressEpisodes, hmem, countMoves, List.count_append]
          omega
        · have hc' : ¬ key = code := fun h => hc h.symm
          cases hdc : directionMap code with
          | none =>
            rw [onKeydown_of_no_direction c code hmem hdc]
            simp [pressEpisodes, hc, hc']
          | some d' =>
            have hdd : ¬ d' = d := by
              intro h
              subst h
              exact hc (directionMap_injective code key d' hdc hd)
            have hcount : List.count (Command.move d) [Command.move d'] = 0 := by
              rw [List.count_eq_zero]
              intro hm
              rw [List.mem_singleton] at hm
              injection hm with hm
              exact hdd hm.symm
            rw [onKeydown_of_direction c code d' hws hmem hdc]
            simp [pressEpisodes, hc, hc', countMoves, List.count_append, hcount]
    | up code =>
      have hws' : (onKeyup c code).ws = some ReadyState.OPEN := by rw [onKeyup_ws, hws]
      have h1 := ih (onKeyup c code) hws'
      show countMoves d (runKeys (onKeyup c code) t).sent = _
      rw [h1, onKeyup_countMoves, onKeyup_keysPressed]
      by_cases hc : code = key
      · subst hc
        simp [pressEpisodes, mem_setDelete]
      · have hc' : ¬ key = code := fun h => hc h.symm
        simp [pressEpisodes, hc, hc', mem_setDelete]

end GameClient

namespace GameClient

/-! ## The moving flag under an open socket -/

theorem onKeydown_moving_of_held (c : State) (key : String) (hws : c.ws = some ReadyState.OPEN)
    (hinv : (∃ a ∈ movementKeys, a ∈ c.keysPressed) → c.isMoving = true) :
    (∃ a ∈ movementKeys, a ∈ (onKeydown c key).keysPressed) →
      (onKeydown c key).isMoving = true := by
  by_cases hmem : key ∈ c.keysPressed
  · rw [onKeydown_of_mem c key hmem]
    exact hinv
  · cases hd : directionMap key with
    | some d =>
      rw [onKeydown_of_direction c key d hws hmem hd]
      intro _
      rfl
    | none =>
      rw [onKeydown_of_no_direction c key hmem hd]
      rintro ⟨a, ha, hin⟩
      have hin' : a ∈ c.keysPressed ++ [key] := hin
      rw [List.mem_append, List.mem_singleton] at hin'
      rcases hin' with h | h
      · exact hinv ⟨a, ha, h⟩
      · subst h
        obtain ⟨d, hd'⟩ := directionMap_of_mem a ha
        rw [hd] at hd'
        cases hd'

theorem onKeyup_moving_of_held (c : State) (key : String)
    (hinv : (∃ a ∈ movementKeys, a ∈ c.keysPressed) → c.isMoving = true) :
    (∃ a ∈ movementKeys, a ∈ (onKeyup c key).keysPressed) →
      (onKeyup c key).isMoving = true := by
  by_cases h : c.ws = some ReadyState.OPEN ∧ c.isMoving = true ∧
      ∀ a ∈ movementKeys, a ∉ setDelete c.keysPressed key
  · rw [onKeyup_stop c key h.1 h.2.1 h.2.2]
    rintro ⟨a, ha, hin⟩
    exact absurd hin (h.2.2 a ha)
  · rw [onKeyup_quiet c key h]
    rintro ⟨a, ha, hin⟩
    exact hinv ⟨a, ha, ((mem_setDelete _ _ _).mp hin).1⟩

theorem runKeys_moving_of_held (events : List KeyEvent) (c : State)
    (hws : c.ws = some ReadyState.OPEN)
    (hinv : (∃ a ∈ movementKeys, a ∈ c.keysPressed) → c.isMoving = true) :
    (∃ a ∈ movementKeys, a ∈ (runKeys c events).keysPressed) →
      (runKeys c events).isMoving = true := by
  induction events generalizing c with
  | nil => exact hinv
  | cons e t ih =>
    rw [runKeys_cons]
    cases e with
    | down code =>
      exact ih (onKeydown c code) (by rw [onKeydown_ws, hws])
        (onKeydown_moving_of_held c code hws hinv)
    | up code =>
      exact ih (onKeyup c code) (by rw [onKeyup_ws, hws]) (onKeyup_moving_of_held c code hinv)

theorem onKeydown_held_of_moving (c : State) (key : String)
    (hws : c.ws = some ReadyState.OPEN) (hp : key ∉ objectPrototypeMembers)
    (hinv : c.isMoving = true → ∃ a ∈ movementKeys, a ∈ c.keysPressed) :
    (onKeydown c key).isMoving = true →
      ∃ a ∈ movementKeys, a ∈ (onKeydown c key).keysPressed := by
  by_cases hmem : key ∈ c.keysPressed
  · rw [onKeydown_of_mem c key hmem]
    exact hinv
  · cases hd : directionMap key with
    | some d =>
      rw [onKeydown_of_direction c key d hws hmem hd]
      intro _
      have hk : key ∈ movementKeys := by
        rcases directionMap_some_cases key d hd with h | h
        · exact h
        · exact absurd h hp
      exact ⟨key, hk, List.mem_append.mpr (Or.inr (List.mem_singleton.mpr rfl))⟩
    | none =>
      rw [onKeydown_of_no_direction c key hmem hd]
      intro hm
      obtain ⟨a, ha, hin⟩ := hinv hm
      exact ⟨a, ha, List.mem_append.mpr (Or.inl hin)⟩

theorem onKeyup_held_of_moving (c : State) (key : String) (hws : c.ws = some ReadyState.OPEN) :
    (onKeyup c key).isMoving = true →
      ∃ a ∈ movementKeys, a ∈ (onKeyup c key).keysPressed := by
  by_cases h : c.ws = some ReadyState.OPEN ∧ c.isMoving = true ∧
      ∀ a ∈ movementKeys, a ∉ setDelete c.keysPressed key
  · rw [onKeyup_stop c key h.1 h.2.1 h.2.2]
    intro hm
    cases hm
  · rw [onKeyup_quiet c key h]
    intro hm
    by_contra hno
    apply h
    refine ⟨hws, hm, ?_⟩
    intro a ha hin
    exact hno ⟨a, ha, hin⟩

theorem runKeys_held_of_moving (events : List KeyEvent) (c : State)
    (hws : c.ws = some ReadyState.OPEN)
    (hp : ∀ e ∈ events, ∀ code, e = KeyEvent.down code → code ∉ objectPrototypeMembers)
    (hinv : c.isMoving = true → ∃ a ∈ movementKeys, a ∈ c.keysPressed) :
    (runKeys c events).isMoving = true →
      ∃ a ∈ movementKeys, a ∈ (runKeys c events).keysPressed := by
  induction events generalizing c with
  | nil => exact hinv
  | cons e t ih =>
    rw [runKeys_cons]
    have ht : ∀ e ∈ t, ∀ code, e = KeyEvent.down code → code ∉ objectPrototypeMembers :=
      fun x hx => hp x (List.mem_cons_of_mem _ hx)
    cases e with
    | down code =>
      exact ih (onKeydown c code) (by rw [onKeydown_ws, hws]) ht
        (onKeydown_held_of_moving c code hws (hp _ (List.mem_cons_self _ _) code rfl) hinv)
    | up code =>
      exact ih (onKeyup c code) (by rw [onKeyup_ws, hws]) ht
        (onKeyup_held_of_moving c code hws)

theorem runKeys_silent_without_move_key (events : List KeyEvent) (c : State)
    (hm : c.isMoving = false)
    (hno : ∀ e ∈ events, ∀ code, e = KeyEvent.down code →
      code ∉ movementKeys ∧ code ∉ objectPrototypeMembers) :
    (runKeys c events).sent = c.sent ∧ (runKeys c events).isMoving = false := by
  induction events generalizing c with
  | nil => exact ⟨rfl, hm⟩
  | cons e t ih =>
    rw [runKeys_cons]
    have ht : ∀ e ∈ t, ∀ code, e = KeyEvent.down code →
        code ∉ movementKeys ∧ code ∉ objectPrototypeMembers :=
      fun x hx => hno x (List.mem_cons_of_mem _ hx)
    cases e with
    | down code =>
      have hcode := hno _ (List.mem_cons_self _ _) code rfl
      have hd := directionMap_eq_none code hcode.1 hcode.2
      have hstep : step c (KeyEvent.down code).toEvent = onKeydown c code := rfl
      rw [hstep]
      by_cases hmem : code ∈ c.keysPressed
      · rw [onKeydown_of_mem c code hmem]
        exact ih c hm ht
      · rw [onKeydown_of_no_direction c code hmem hd]
        exact ih { c with keysPressed := c.keysPressed ++ [code] } hm ht
    | up code =>
      have hq : ¬ (c.ws = some ReadyState.OPEN ∧ c.isMoving = true ∧
          ∀ a ∈ movementKeys, a ∉ setDelete c.keysPressed code) := by
        rintro ⟨-, h, -⟩
        rw [hm] at h
        cases h
      have hstep : step c (KeyEvent.up code).toEvent = onKeyup c code := rfl
      rw [hstep, onKeyup_quiet c code hq]
      exact ih { c with keysPressed := setDelete c.keysPressed code } hm ht

/-! ## Claims -/

/-- C1: after `updateViewport` runs with the local player set, each viewport
coordinate lies between 0 and `max 0 (world - canvas)`; hence inside
`[0, world - canvas]` when the canvas is no larger than the world, and equal to
0 on an axis where the canvas is larger than the world. -/
theorem C1_viewport_within_bounds (c : State) (p : Player) (h : c.myPlayer = some p) :
    (0 ≤ (updateViewport c).viewportX ∧
      (updateViewport c).viewportX ≤ max 0 (c.worldWidth - (c.canvasWidth : ℚ))) ∧
    (0 ≤ (updateViewport c).viewportY ∧
      (updateViewport c).viewportY ≤ max 0 (c.worldHeight - (c.canvasHeight : ℚ))) ∧
    ((c.canvasWidth : ℚ) ≤ c.worldWidth →
      (updateViewport c).viewportX ≤ c.worldWidth - (c.canvasWidth : ℚ)) ∧
    ((c.canvasHeight : ℚ) ≤ c.worldHeight →
      (updateViewport c).viewportY ≤ c.worldHeight - (c.canvasHeight : ℚ)) ∧
    (c.worldWidth < (c.canvasWidth : ℚ) → (updateViewport c).viewportX = 0) ∧
    (c.worldHeight < (c.canvasHeight : ℚ) → (updateViewport c).viewportY = 0) := by
  simp only [updateViewport, h]
  refine ⟨⟨le_max_left _ _, ?_⟩, ⟨le_max_left _ _, ?_⟩, ?_, ?_, ?_, ?_⟩
  · exact max_le_max le_rfl (min_le_right _ _)
  · exact max_le_max le_rfl (min_le_right _ _)
  · intro hw
    exact max_le (by linarith) (min_le_right _ _)
  · intro hw
    exact max_le (by linarith) (min_le_right _ _)
  · intro hw
    exact max_eq_left ((min_le_right _ _).trans (by linarith))
  · intro hw
    exact max_eq_left ((min_le_right _ _).trans (by linarith))

/-- Witness of C1: the joined client in its 800 x 600 window, and the same client
after a resize to 3000 x 2500, larger than the world. -/
theorem C1_viewport_within_bounds_witness :
    ((0 ≤ (updateViewport joinedClient).viewportX ∧
        (updateViewport joinedClient).viewportX ≤ 2048 - 800) ∧
      (0 ≤ (updateViewport joinedClient).viewportY ∧
        (updateViewport joinedClient).viewportY ≤ 2048 - 600)) ∧
    ((updateViewport (onResize joinedClient 3000 2500)).viewportX = 0 ∧
      (updateViewport (onResize joinedClient 3000 2500)).viewportY = 0) := by
  have hA := C1_viewport_within_bounds joinedClient (samplePlayer "p1" 100 100) rfl
  have hB := C1_viewport_within_bounds (onResize joinedClient 3000 2500)
    (samplePlayer "p1" 100 100) rfl
  have hw : (joinedClient.canvasWidth : ℚ) = 800 := by
    norm_num [show joinedClient.canvasWidth = 800 from rfl]
  have hh : (joinedClient.canvasHeight : ℚ) = 600 := by
    norm_num [show joinedClient.canvasHeight = 600 from rfl]
  have hW : joinedClient.worldWidth = 2048 := rfl
  have hH : joinedClient.worldHeight = 2048 := rfl
  have hw' : ((onResize joinedClient 3000 2500).canvasWidth : ℚ) = 3000 := by
    norm_num [show (onResize joinedClient 3000 2500).canvasWidth = 3000 from rfl]
  have hh' : ((onResize joinedClient 3000 2500).canvasHeight : ℚ) = 2500 := by
    norm_num [show (onResize joinedClient 3000 2500).canvasHeight = 2500 from rfl]
  have hW' : (onResize joinedClient 3000 2500).worldWidth = 2048 := rfl
  have hH' : (onResize joinedClient 3000 2500).worldHeight = 2048 := rfl
  rw [hw, hh, hW, hH] at hA
  rw [hw', hh', hW', hH'] at hB
  obtain ⟨a1, a2, a3, a4, -, -⟩ := hA
  obtain ⟨-, -, -, -, b5, b6⟩ := hB
  exact ⟨⟨⟨a1.1, a3 (by norm_num)⟩, ⟨a2.1, a4 (by norm_num)⟩⟩, b5 (by norm_num), b6 (by norm_num)⟩

/-- C2: after any sequence of `players_moved` messages, the roster entry of an
id is the snapshot carried for it by the last message that contains it, and the
entry of an id that occurs in no message is the one stored before. -/
theorem C2_players_moved_last_write_wins (c : State)
    (snaps : List (List (String × Option Player))) (id : String) :
    (∀ (before : List (List (String × Option Player))) (last : List (String × Option Player))
        (after : List (List (String × Option Player))) (p : Option Player),
        snaps = before ++ last :: after → (keys last).Nodup → mapGet last id = some p →
        (∀ s ∈ after, id ∉ keys s) →
        mapGet (applyPlayersMoved c (snaps.map movedMessage)).players id = some p) ∧
    ((∀ s ∈ snaps, id ∉ keys s) →
        mapGet (applyPlayersMoved c (snaps.map movedMessage)).players id =
          mapGet c.players id) := by
  refine ⟨?_, applyPlayersMoved_of_not_mem snaps c id⟩
  intro before last after p hs hnd hget hafter
  subst hs
  rw [List.map_append, List.map_cons, applyPlayersMoved_append]
  have hcons : applyPlayersMoved (applyPlayersMoved c (before.map movedMessage))
      (movedMessage last :: after.map movedMessage) =
      applyPlayersMoved
        (handlePlayersMoved (applyPlayersMoved c (before.map movedMessage))
          (movedMessage last)).state (after.map movedMessage) := rfl
  rw [hcons, applyPlayersMoved_of_not_mem after _ id hafter, handlePlayersMoved_state]
  show mapGet (setAll _ last) id = some p
  rw [mapGet_setAll last _ id hnd, hget]

/-- Witness of C2: `p1` at (150, 100) followed by a stale (90, 100) ends at
(90, 100); messages about `p2` leave the entry of `p1` as it was. -/
theorem C2_players_moved_last_write_wins_witness :
    mapGet (applyPlayersMoved joinedClient
      ([[("p1", some (samplePlayer "p1" 150 100))],
        [("p1", some (samplePlayer "p1" 90 100))]].map
        movedMessage)).players "p1" = some (some (samplePlayer "p1" 90 100)) ∧
    mapGet (applyPlayersMoved joinedClient
      ([[("p2", some (samplePlayer "p2" 150 100))],
        [("p2", some (samplePlayer "p2" 90 100))]].map
        movedMessage)).players "p1" = mapGet joinedClient.players "p1" :=
  ⟨(C2_players_moved_last_write_wins joinedClient
      [[("p1", some (samplePlayer "p1" 150 100))], [("p1", some (samplePlayer "p1" 90 100))]]
      "p1").1
      [[("p1", some (samplePlayer "p1" 150 100))]] [("p1", some (samplePlayer "p1" 90 100))] []
      (some (samplePlayer "p1" 90 100)) rfl (by decide) (by decide) (by simp),
   (C2_players_moved_last_write_wins joinedClient
      [[("p2", some (samplePlayer "p2" 150 100))], [("p2", some (samplePlayer "p2" 90 100))]]
      "p1").2
      (by decide)⟩

/-- C3 (code defect): after the join as `p1` at (100, 100) in an 800 x 600
window, a `players_moved` carrying `p1` at (1500, 1500) updates the roster entry
but leaves `myPlayer` at (100, 100) and the viewport at (0, 0), whereas the
viewport recomputed from the new position would be (1100, 1200); a later resize
to the same size recomputes from the stale `myPlayer` and stays at (0, 0). -/
theorem C3_players_moved_keeps_stale_viewport :
    joinedClient.myPlayerId = some "p1" ∧
    mapGet (handlePlayersMoved joinedClient
      (movedMessage [("p1", some (samplePlayer "p1" 1500 1500))])).state.players "p1" =
        some (some (samplePlayer "p1" 1500 1500)) ∧
    (handlePlayersMoved joinedClient
      (movedMessage [("p1", some (samplePlayer "p1" 1500 1500))])).state.myPlayer =
        some (samplePlayer "p1" 100 100) ∧
    (handlePlayersMoved joinedClient
      (movedMessage [("p1", some (samplePlayer "p1" 1500 1500))])).state.viewportX = 0 ∧
    (handlePlayersMoved joinedClient
      (movedMessage [("p1", some (samplePlayer "p1" 1500 1500))])).state.viewportY = 0 ∧
    max (0 : ℚ) (min (1500 - (800 : ℚ) / 2) (2048 - 800)) = 1100 ∧
    max (0 : ℚ) (min (1500 - (600 : ℚ) / 2) (2048 - 600)) = 1200 ∧
    (onResize (handlePlayersMoved joinedClient
      (movedMessage [("p1", some (samplePlayer "p1" 1500 1500))])).state 800 600).viewportX =
        0 ∧
    (onResize (handlePlayersMoved joinedClient
      (movedMessage [("p1", some (samplePlayer "p1" 1500 1500))])).state 800 600).viewportY =
        0 := by
  have hjoin : joinedClient.viewportX = 0 ∧ joinedClient.viewportY = 0 := by
    constructor <;>
    · simp [joinedClient, run, step, onopen, joinGame, create, connectToServer, onmessage,
        parseAndHandle, handleServerMessage, handleJoinGameSuccess, storePlayer, storeAvatars,
        loadAvatarImages, sampleJoin, sampleAvatar, samplePlayer, mapSet, Outcome.ok,
        drawGame_state, updateViewport]
      norm_num
  refine ⟨rfl, ?_, ?_, ?_, ?_, by norm_num, by norm_num, ?_, ?_⟩
  · rw [handlePlayersMoved_state]; decide
  · rw [handlePlayersMoved_state]; rfl
  · rw [handlePlayersMoved_state]; exact hjoin.1
  · rw [handlePlayersMoved_state]; exact hjoin.2
  · rw [handlePlayersMoved_state]
    have hp : joinedClient.myPlayer = some (samplePlayer "p1" 100 100) := rfl
    simp only [onResize, drawGame_state, updateViewport, hp, samplePlayer]
    norm_num
  · rw [handlePlayersMoved_state]
    have hp : joinedClient.myPlayer = some (samplePlayer "p1" 100 100) := rfl
    simp only [onResize, drawGame_state, updateViewport, hp, samplePlayer]
    norm_num

end GameClient

namespace GameClient

/-- C4, as the code has it: on a message with players and avatars (every avatar
with frames) `handleJoinGameSuccess` records `message.playerId` and merges the
message into the stores: an id (avatar name) of the message gets the message's
value, any other id (avatar name) keeps what was stored before. In particular
the stores hold exactly the message's entries when they were empty before. The
handler completes when no roster value is `null` after the merge. -/
theorem C4_join_merges_into_stores (c : State) (playerId : Option String)
    (players : List (String × Option Player)) (avatars : List (String × Avatar))
    (hp : (keys players).Nodup) (ha : (keys avatars).Nodup)
    (hf : ∀ e ∈ avatars, e.2.frames ≠ none) :
    (handleJoinGameSuccess c (joinMessage playerId players avatars)).state.myPlayerId =
      playerId ∧
    (∀ id p, mapGet players id = some p →
      mapGet (handleJoinGameSuccess c (joinMessage playerId players avatars)).state.players id =
        some p) ∧
    (∀ id, mapGet players id = none →
      mapGet (handleJoinGameSuccess c (joinMessage playerId players avatars)).state.players id =
        mapGet c.players id) ∧
    (∀ n a, mapGet avatars n = some a →
      mapGet (handleJoinGameSuccess c (joinMessage playerId players avatars)).state.avatars n =
        some a) ∧
    (∀ n, mapGet avatars n = none →
      mapGet (handleJoinGameSuccess c (joinMessage playerId players avatars)).state.avatars n =
        mapGet c.avatars n) ∧
    (c.players = [] → ∀ id,
      mapGet (handleJoinGameSuccess c (joinMessage playerId players avatars)).state.players id =
        mapGet players id) ∧
    (c.avatars = [] → ∀ n,
      mapGet (handleJoinGameSuccess c (joinMessage playerId players avatars)).state.avatars n =
        mapGet avatars n) ∧
    ((∀ e ∈ setAll c.players players, e.2 ≠ none) →
      (handleJoinGameSuccess c (joinMessage playerId players avatars)).thrown = none) := by
  rw [handleJoinGameSuccess_of_frames c playerId players avatars hf]
  have hP := fun id => mapGet_setAll players c.players id hp
  have hA := fun n => mapGet_setAll avatars c.avatars n ha
  have hs1 : ∀ s : State, (drawGame (updateViewport s)).state.players = s.players := by
    intro s
    rw [drawGame_state]
    exact updateViewport_players s
  have hs2 : ∀ s : State, (drawGame (updateViewport s)).state.avatars = s.avatars := by
    intro s
    rw [drawGame_state]
    simp only [updateViewport]
    cases s.myPlayer <;> rfl
  have hs3 : ∀ s : State, (drawGame (updateViewport s)).state.myPlayerId = s.myPlayerId := by
    intro s
    rw [drawGame_state]
    simp only [updateViewport]
    cases s.myPlayer <;> rfl
  rw [hs1, hs2, hs3]
  refine ⟨rfl, ?_, ?_, ?_, ?_, ?_, ?_, ?_⟩
  · intro id p h
    show mapGet (setAll c.players players) id = some p
    rw [hP id, h]
  · intro id h
    show mapGet (setAll c.players players) id = mapGet c.players id
    rw [hP id, h]
  · intro n a h
    show mapGet (setAll c.avatars avatars) n = some a
    rw [hA n, h]
  · intro n h
    show mapGet (setAll c.avatars avatars) n = mapGet c.avatars n
    rw [hA n, h]
  · intro he id
    show mapGet (setAll c.players players) id = mapGet players id
    rw [hP id, he]
    cases mapGet players id <;> rfl
  · intro he n
    show mapGet (setAll c.avatars avatars) n = mapGet avatars n
    rw [hA n, he]
    cases mapGet avatars n <;> rfl
  · intro hall
    apply drawGame_thrown_of_no_null
    intro e he
    rw [updateViewport_players] at he
    exact hall e he

/-- Witness of C4: the second join of a reconnected client, whose stores still
hold player `p1` and avatar `a` of the first session, and the first join of a
newly created client, whose stores are empty. -/
theorem C4_join_merges_into_stores_witness :
    (handleJoinGameSuccess reconnectedClient sampleRejoin).state.myPlayerId = some "p9" ∧
    mapGet (handleJoinGameSuccess reconnectedClient sampleRejoin).state.players "p9" =
      some (some { samplePlayer "p9" 300 300 with avatar := "b" }) ∧
    mapGet (handleJoinGameSuccess reconnectedClient sampleRejoin).state.players "p1" =
      mapGet reconnectedClient.players "p1" ∧
    mapGet reconnectedClient.players "p1" = some (some (samplePlayer "p1" 100 100)) ∧
    mapGet (handleJoinGameSuccess reconnectedClient sampleRejoin).state.avatars "b" =
      some { sampleAvatar with name := "b" } ∧
    mapGet (handleJoinGameSuccess reconnectedClient sampleRejoin).state.avatars "a" =
      mapGet reconnectedClient.avatars "a" ∧
    mapGet reconnectedClient.avatars "a" = some sampleAvatar ∧
    (handleJoinGameSuccess reconnectedClient sampleRejoin).thrown = none ∧
    mapGet (handleJoinGameSuccess (create 800 600)
      (joinMessage (some "p1") [("p1", some (samplePlayer "p1" 100 100))]
        [("a", sampleAvatar)])).state.players "p2" =
      mapGet [("p1", some (samplePlayer "p1" 100 100))] "p2" ∧
    mapGet (handleJoinGameSuccess (create 800 600)
      (joinMessage (some "p1") [("p1", some (samplePlayer "p1" 100 100))]
        [("a", sampleAvatar)])).state.avatars "b" = mapGet [("a", sampleAvatar)] "b" := by
  have h := C4_join_merges_into_stores reconnectedClient (some "p9")
    [("p9", some { samplePlayer "p9" 300 300 with avatar := "b" })]
    [("b", { sampleAvatar with name := "b" })] (by decide) (by decide) (by decide)
  have h0 := C4_join_merges_into_stores (create 800 600) (some "p1")
    [("p1", some (samplePlayer "p1" 100 100))] [("a", sampleAvatar)] (by decide) (by decide)
    (by decide)
  have e : sampleRejoin = joinMessage (some "p9")
      [("p9", some { samplePlayer "p9" 300 300 with avatar := "b" })]
      [("b", { sampleAvatar with name := "b" })] := rfl
  rw [e]
  exact ⟨h.1, h.2.1 "p9" _ (by decide), h.2.2.1 "p1" (by decide), by decide,
    h.2.2.2.1 "b" _ (by decide), h.2.2.2.2.1 "a" (by decide), by decide,
    h.2.2.2.2.2.2.2 (by decide),
    h0.2.2.2.2.2.1 rfl "p2", h0.2.2.2.2.2.2.1 rfl "b"⟩

/-- C4 fails as stated: a client that joined as `p1` (avatar `a`), lost its
socket and reconnected still holds player `p1` and avatar `a` after the join
message of the new session, which carries only player `p9` and avatar `b`. -/
theorem C4_join_keeps_stale_entries :
    sampleRejoin = joinMessage (some "p9")
      [("p9", some { samplePlayer "p9" 300 300 with avatar := "b" })]
      [("b", { sampleAvatar with name := "b" })] ∧
    mapGet [("p9", some { samplePlayer "p9" 300 300 with avatar := "b" })] "p1" = none ∧
    mapGet (handleJoinGameSuccess reconnectedClient sampleRejoin).state.players "p1" =
      some (some (samplePlayer "p1" 100 100)) ∧
    mapGet [("b", { sampleAvatar with name := "b" })] "a" = none ∧
    mapGet (handleJoinGameSuccess reconnectedClient sampleRejoin).state.avatars "a" =
      some sampleAvatar := by
  have h := handleJoinGameSuccess_of_frames reconnectedClient (some "p9")
    [("p9", some { samplePlayer "p9" 300 300 with avatar := "b" })]
    [("b", { sampleAvatar with name := "b" })] (by decide)
  have e : sampleRejoin = joinMessage (some "p9")
    [("p9", some { samplePlayer "p9" 300 300 with avatar := "b" })]
    [("b", { sampleAvatar with name := "b" })] := rfl
  refine ⟨rfl, by decide, ?_, by decide, ?_⟩
  · rw [e, h, drawGame_state]
    simp only [updateViewport]
    decide
  · rw [e, h, drawGame_state]
    simp only [updateViewport]
    decide

/-- C5, as the code has it: a successful `join_game` that carries an avatars
mapping in which every avatar has frames, whose `playerId` is `L` and whose
players mapping has `L` at `p`, leaves the viewport centred on `p` and clamped;
when the centred coordinate needs no clamping the player's screen coordinate is
half the canvas size; and `drawGame` is called exactly once. -/
theorem C5_join_centres_viewport (c : State) (L : String)
    (players : List (String × Option Player))
    (avatars : List (String × Avatar)) (p : Player)
    (hp : (keys players).Nodup) (hL : mapGet players L = some (some p))
    (hf : ∀ e ∈ avatars, e.2.frames ≠ none) :
    (handleJoinGameSuccess c (joinMessage (some L) players avatars)).state.viewportX =
      max 0 (min (p.x - (c.canvasWidth : ℚ) / 2) (c.worldWidth - (c.canvasWidth : ℚ))) ∧
    (handleJoinGameSuccess c (joinMessage (some L) players avatars)).state.viewportY =
      max 0 (min (p.y - (c.canvasHeight : ℚ) / 2) (c.worldHeight - (c.canvasHeight : ℚ))) ∧
    (0 ≤ p.x - (c.canvasWidth : ℚ) / 2 →
      p.x - (c.canvasWidth : ℚ) / 2 ≤ c.worldWidth - (c.canvasWidth : ℚ) →
      p.x - (handleJoinGameSuccess c (joinMessage (some L) players avatars)).state.viewportX =
        (c.canvasWidth : ℚ) / 2) ∧
    (0 ≤ p.y - (c.canvasHeight : ℚ) / 2 →
      p.y - (c.canvasHeight : ℚ) / 2 ≤ c.worldHeight - (c.canvasHeight : ℚ) →
      p.y - (handleJoinGameSuccess c (joinMessage (some L) players avatars)).state.viewportY =
        (c.canvasHeight : ℚ) / 2) ∧
    (handleJoinGameSuccess c (joinMessage (some L) players avatars)).state.redraws =
      c.redraws + 1 := by
  rw [handleJoinGameSuccess_of_frames c (some L) players avatars hf,
    localPlayerAfter_of_mapGet players L c.myPlayer (some p) hp hL, drawGame_state]
  simp only [updateViewport, true_and, and_true]
  refine ⟨?_, ?_⟩
  · intro h0 h1
    rw [min_eq_left h1, max_eq_right h0]
    ring
  · intro h0 h1
    rw [min_eq_left h1, max_eq_right h0]
    ring

/-- Witness of C5: joining at (1000, 1000) in an 800 x 600 window puts the
viewport at (600, 700), the player at the centre (400, 300) of the canvas. -/
theorem C5_join_centres_viewport_witness :
    (handleJoinGameSuccess (onopen (create 800 600))
      (joinMessage (some "p1") [("p1", some (samplePlayer "p1" 1000 1000))]
        [("a", sampleAvatar)])).state.viewportX = 600 ∧
    (handleJoinGameSuccess (onopen (create 800 600))
      (joinMessage (some "p1") [("p1", some (samplePlayer "p1" 1000 1000))]
        [("a", sampleAvatar)])).state.viewportY = 700 ∧
    (1000 : ℚ) - (handleJoinGameSuccess (onopen (create 800 600))
      (joinMessage (some "p1") [("p1", some (samplePlayer "p1" 1000 1000))]
        [("a", sampleAvatar)])).state.viewportX = 400 ∧
    (1000 : ℚ) - (handleJoinGameSuccess (onopen (create 800 600))
      (joinMessage (some "p1") [("p1", some (samplePlayer "p1" 1000 1000))]
        [("a", sampleAvatar)])).state.viewportY = 300 ∧
    (handleJoinGameSuccess (onopen (create 800 600))
      (joinMessage (some "p1") [("p1", some (samplePlayer "p1" 1000 1000))]
        [("a", sampleAvatar)])).state.redraws = 1 := by
  have h := C5_join_centres_viewport (onopen (create 800 600)) "p1"
    [("p1", some (samplePlayer "p1" 1000 1000))] [("a", sampleAvatar)]
    (samplePlayer "p1" 1000 1000) (by decide) (by decide) (by decide)
  have hw : ((onopen (create 800 600)).canvasWidth : ℚ) = 800 := by
    norm_num [show (onopen (create 800 600)).canvasWidth = 800 from rfl]
  have hh : ((onopen (create 800 600)).canvasHeight : ℚ) = 600 := by
    norm_num [show (onopen (create 800 600)).canvasHeight = 600 from rfl]
  have hW : (onopen (create 800 600)).worldWidth = 2048 := rfl
  have hH : (onopen (create 800 600)).worldHeight = 2048 := rfl
  have hx : (samplePlayer "p1" 1000 1000).x = 1000 := rfl
  have hy : (samplePlayer "p1" 1000 1000).y = 1000 := rfl
  have hr : (onopen (create 800 600)).redraws = 0 := rfl
  rw [hw, hh, hW, hH, hx, hy, hr] at h
  obtain ⟨h1, h2, h3, h4, h5⟩ := h
  refine ⟨?_, ?_, ?_, ?_, h5⟩
  · rw [h1]; norm_num
  · rw [h2]; norm_num
  · rw [h3 (by norm_num) (by norm_num)]; norm_num
  · rw [h4 (by norm_num) (by norm_num)]; norm_num

/-- C5 fails as stated: on the initial connected client in an 800 x 600 window, a
successful `join_game` whose `playerId` is `p1` and whose players mapping has
`p1` at (1000, 1000), but which carries no avatars mapping, throws before
`updateViewport` and `drawGame`: the viewport stays at (0, 0) instead of
(600, 700) and no redraw is requested. -/
theorem C5_join_without_avatars_keeps_viewport :
    joinWithoutAvatars.success = true ∧
    joinWithoutAvatars.playerId = some "p1" ∧
    joinWithoutAvatars.players = some [("p1", some (samplePlayer "p1" 1000 1000))] ∧
    (handleJoinGameSuccess (onopen (create 800 600)) joinWithoutAvatars).state.viewportX = 0 ∧
    (handleJoinGameSuccess (onopen (create 800 600)) joinWithoutAvatars).state.viewportY = 0 ∧
    max (0 : ℚ) (min (1000 - (800 : ℚ) / 2) (2048 - 800)) = 600 ∧
    max (0 : ℚ) (min (1000 - (600 : ℚ) / 2) (2048 - 600)) = 700 ∧
    (handleJoinGameSuccess (onopen (create 800 600)) joinWithoutAvatars).state.redraws = 0 := by
  refine ⟨rfl, rfl, rfl, rfl, rfl, by norm_num, by norm_num, rfl⟩

end GameClient

namespace GameClient

/-- C6: with the socket open and no key held at the start, after any sequence
of key events a key-down of an arrow key that is not held sends exactly one
`move` with the mapped direction, a key-down of a key that is held changes
nothing, and the number of `move` commands sent for a direction is the number of
press-and-hold episodes of its arrow key. -/
theorem C6_one_move_per_press_episode (c : State) (events : List KeyEvent)
    (hws : c.ws = some ReadyState.OPEN) (hk : c.keysPressed = []) :
    (directionMap "ArrowUp" = some (DirectionValue.str "up") ∧
      directionMap "ArrowDown" = some (DirectionValue.str "down") ∧
      directionMap "ArrowLeft" = some (DirectionValue.str "left") ∧
      directionMap "ArrowRight" = some (DirectionValue.str "right")) ∧
    (∀ key d, directionMap key = some d → heldAfter key false events = false →
      (onKeydown (runKeys c events) key).sent =
        (runKeys c events).sent ++ [Command.move d]) ∧
    (∀ key, heldAfter key false events = true →
      onKeydown (runKeys c events) key = runKeys c events) ∧
    (∀ key d, directionMap key = some d →
      countMoves d (runKeys c events).sent =
        countMoves d c.sent + pressEpisodes key false events) := by
  have hdec : ∀ key : String, decide (key ∈ c.keysPressed) = false := by
    intro key
    simp [hk]
  have hheld : ∀ key : String,
      heldAfter key false events = true ↔ key ∈ (runKeys c events).keysPressed := by
    intro key
    rw [← heldAfter_iff_mem key events c, hdec key]
  have hopen : (runKeys c events).ws = some ReadyState.OPEN := by rw [runKeys_ws, hws]
  refine ⟨⟨by decide, by decide, by decide, by decide⟩, ?_, ?_, ?_⟩
  · intro key d hd hnot
    have hmem : key ∉ (runKeys c events).keysPressed := by
      intro hm
      rw [(hheld key).mpr hm] at hnot
      cases hnot
    rw [onKeydown_of_direction (runKeys c events) key d hopen hmem hd]
  · intro key hheldkey
    exact onKeydown_of_mem (runKeys c events) key ((hheld key).mp hheldkey)
  · intro key d hd
    rw [countMoves_runKeys key d hd events c hws, hdec key]

/-- Witness of C6: ArrowUp down, ArrowUp down (auto-repeat), ArrowUp up sends one
`move` up. -/
theorem C6_one_move_per_press_episode_witness :
    (onKeydown (runKeys (onopen (create 800 600)) []) "ArrowUp").sent =
      (runKeys (onopen (create 800 600)) []).sent ++
        [Command.move (DirectionValue.str "up")] ∧
    onKeydown (runKeys (onopen (create 800 600)) [KeyEvent.down "ArrowUp"]) "ArrowUp" =
      runKeys (onopen (create 800 600)) [KeyEvent.down "ArrowUp"] ∧
    countMoves (DirectionValue.str "up") (runKeys (onopen (create 800 600))
      [KeyEvent.down "ArrowUp", KeyEvent.down "ArrowUp", KeyEvent.up "ArrowUp"]).sent =
      countMoves (DirectionValue.str "up") (onopen (create 800 600)).sent + 1 :=
  ⟨(C6_one_move_per_press_episode (onopen (create 800 600)) [] rfl rfl).2.1
      "ArrowUp" (DirectionValue.str "up") (by decide) (by decide),
   (C6_one_move_per_press_episode (onopen (create 800 600)) [KeyEvent.down "ArrowUp"]
      rfl rfl).2.2.1 "ArrowUp" (by decide),
   (C6_one_move_per_press_episode (onopen (create 800 600))
      [KeyEvent.down "ArrowUp", KeyEvent.down "ArrowUp", KeyEvent.up "ArrowUp"]
      rfl rfl).2.2.2 "ArrowUp" (DirectionValue.str "up") (by decide)⟩

/-- What holds of `stop` with the socket open, no key held and the moving flag
false at the start: after any sequence of key events a key-up of a held arrow
key that leaves no arrow key held sends exactly one `stop` and clears the moving
flag, and a key-up that leaves some arrow key held sends nothing; a sequence
with no key-down of an arrow key and no key-down of a code naming a member of
`Object.prototype` sends nothing. -/
theorem stop_on_last_release (c : State) (events : List KeyEvent)
    (hws : c.ws = some ReadyState.OPEN) (hk : c.keysPressed = [])
    (hm : c.isMoving = false) :
    (∀ key ∈ movementKeys, heldAfter key false events = true →
      (∀ a ∈ movementKeys, a ≠ key → heldAfter a false events = false) →
      (onKeyup (runKeys c events) key).sent = (runKeys c events).sent ++ [Command.stop] ∧
      (onKeyup (runKeys c events) key).isMoving = false) ∧
    (∀ key a, a ∈ movementKeys → a ≠ key → heldAfter a false events = true →
      (onKeyup (runKeys c events) key).sent = (runKeys c events).sent) ∧
    ((∀ e ∈ events, ∀ code, e = KeyEvent.down code →
        code ∉ movementKeys ∧ code ∉ objectPrototypeMembers) →
      (runKeys c events).sent = c.sent ∧
      countStops (runKeys c events).sent = countStops c.sent) := by
  have hdec : ∀ key : String, decide (key ∈ c.keysPressed) = false := by
    intro key
    simp [hk]
  have hheld : ∀ key : String,
      heldAfter key false events = true ↔ key ∈ (runKeys c events).keysPressed := by
    intro key
    rw [← heldAfter_iff_mem key events c, hdec key]
  have hopen : (runKeys c events).ws = some ReadyState.OPEN := by rw [runKeys_ws, hws]
  have hinv0 : (∃ a ∈ movementKeys, a ∈ c.keysPressed) → c.isMoving = true := by
    rintro ⟨a, -, hin⟩
    rw [hk] at hin
    cases hin
  refine ⟨?_, ?_, ?_⟩
  · intro key hkey hheldkey hothers
    have hmoving : (runKeys c events).isMoving = true :=
      runKeys_moving_of_held events c hws hinv0 ⟨key, hkey, (hheld key).mp hheldkey⟩
    have hn : ∀ a ∈ movementKeys, a ∉ setDelete (runKeys c events).keysPressed key := by
      intro a ha hin
      obtain ⟨hin1, hne⟩ := (mem_setDelete _ _ _).mp hin
      have h1 := hothers a ha hne
      rw [(hheld a).mpr hin1] at h1
      cases h1
    rw [onKeyup_stop (runKeys c events) key hopen hmoving hn]
    exact ⟨rfl, rfl⟩
  · intro key a ha hne hheldA
    have hq : ¬ ((runKeys c events).ws = some ReadyState.OPEN ∧
        (runKeys c events).isMoving = true ∧
        ∀ a ∈ movementKeys, a ∉ setDelete (runKeys c events).keysPressed key) := by
      rintro ⟨-, -, hall⟩
      exact hall a ha ((mem_setDelete _ _ _).mpr ⟨(hheld a).mp hheldA, hne⟩)
    rw [onKeyup_quiet (runKeys c events) key hq]
  · intro hno
    have h := (runKeys_silent_without_move_key events c hm hno).1
    exact ⟨h, by rw [h]⟩

/-- C7 (code defect): with the socket open, no key held and the moving flag
false, the key-down and key-up of the code `constructor` are a sequence without
any arrow key-down; `directionMap["constructor"]` finds the inherited
`Object.prototype.constructor`, so the key-down sends a `move` and sets the
moving flag, and the key-up then sends one `stop`. -/
theorem C7_inherited_key_sends_stop :
    (onopen (create 800 600)).ws = some ReadyState.OPEN ∧
    (onopen (create 800 600)).keysPressed = [] ∧
    (onopen (create 800 600)).isMoving = false ∧
    "constructor" ∉ movementKeys ∧
    (runKeys (onopen (create 800 600)) [KeyEvent.down "constructor"]).sent =
      (onopen (create 800 600)).sent ++
        [Command.move (DirectionValue.inherited "constructor")] ∧
    (runKeys (onopen (create 800 600)) [KeyEvent.down "constructor"]).isMoving = true ∧
    (runKeys (onopen (create 800 600))
      [KeyEvent.down "constructor", KeyEvent.up "constructor"]).sent =
      (onopen (create 800 600)).sent ++
        [Command.move (DirectionValue.inherited "constructor"), Command.stop] ∧
    countStops (runKeys (onopen (create 800 600))
      [KeyEvent.down "constructor", KeyEvent.up "constructor"]).sent =
      countStops (onopen (create 800 600)).sent + 1 := by
  refine ⟨rfl, rfl, rfl, by decide, by decide, by decide, by decide, by decide⟩

/-- C10, as the code has it, for a key code that is neither an arrow key nor the
name of a member of `Object.prototype`: its key-down sends nothing and keeps the
moving flag. Its key-up sends no `move`; it sends one `stop` and clears the flag
exactly when the socket is open, the flag is set and no arrow key is held, and
otherwise sends nothing and keeps the flag. In a state reached from an open
socket with no key held and the flag false by key events alone, none of them a
key-down of a code naming a member of `Object.prototype`, that case does not
arise: the key-up sends nothing. -/
theorem C10_non_arrow_key (c : State) (key : String) (hkey : key ∉ movementKeys)
    (hproto : key ∉ objectPrototypeMembers) :
    ((onKeydown c key).sent = c.sent ∧ (onKeydown c key).isMoving = c.isMoving) ∧
    (c.ws = some ReadyState.OPEN → c.isMoving = true →
      (∀ a ∈ movementKeys, a ∉ c.keysPressed) →
      (onKeyup c key).sent = c.sent ++ [Command.stop] ∧ (onKeyup c key).isMoving = false) ∧
    (¬ (c.ws = some ReadyState.OPEN ∧ c.isMoving = true ∧
        ∀ a ∈ movementKeys, a ∉ c.keysPressed) →
      (onKeyup c key).sent = c.sent ∧ (onKeyup c key).isMoving = c.isMoving) ∧
    (∀ (c0 : State) (events : List KeyEvent), c0.ws = some ReadyState.OPEN →
      c0.keysPressed = [] → c0.isMoving = false →
      (∀ e ∈ events, ∀ code, e = KeyEvent.down code → code ∉ objectPrototypeMembers) →
      c = runKeys c0 events →
      (onKeyup c key).sent = c.sent ∧ (onKeyup c key).isMoving = c.isMoving) := by
  have hd := directionMap_eq_none key hkey hproto
  have hdel : ∀ a ∈ movementKeys, (a ∈ setDelete c.keysPressed key ↔ a ∈ c.keysPressed) := by
    intro a ha
    rw [mem_setDelete]
    constructor
    · exact fun h => h.1
    · intro h
      refine ⟨h, ?_⟩
      intro he
      subst he
      exact hkey ha
  have hquiet : ¬ (c.ws = some ReadyState.OPEN ∧ c.isMoving = true ∧
        ∀ a ∈ movementKeys, a ∉ c.keysPressed) →
      (onKeyup c key).sent = c.sent ∧ (onKeyup c key).isMoving = c.isMoving := by
    intro hnot
    have hq : ¬ (c.ws = some ReadyState.OPEN ∧ c.isMoving = true ∧
        ∀ a ∈ movementKeys, a ∉ setDelete c.keysPressed key) := by
      rintro ⟨h1, h2, h3⟩
      exact hnot ⟨h1, h2, fun a ha hin => h3 a ha ((hdel a ha).mpr hin)⟩
    rw [onKeyup_quiet c key hq]
    exact ⟨rfl, rfl⟩
  refine ⟨?_, ?_, hquiet, ?_⟩
  · by_cases hmem : key ∈ c.keysPressed
    · rw [onKeydown_of_mem c key hmem]
      exact ⟨rfl, rfl⟩
    · rw [onKeydown_of_no_direction c key hmem hd]
      exact ⟨rfl, rfl⟩
  · intro hws hm hn
    have hn' : ∀ a ∈ movementKeys, a ∉ setDelete c.keysPressed key :=
      fun a ha hin => hn a ha ((hdel a ha).mp hin)
    rw [onKeyup_stop c key hws hm hn']
    exact ⟨rfl, rfl⟩
  · intro c0 events hws0 hk0 hm0 hev hc
    apply hquiet
    rintro ⟨-, hm, hn⟩
    have hinv0 : c0.isMoving = true → ∃ a ∈ movementKeys, a ∈ c0.keysPressed := by
      intro h
      rw [hm0] at h
      cases h
    rw [hc] at hm hn
    obtain ⟨a, ha, hin⟩ := runKeys_held_of_moving events c0 hws0 hev hinv0 hm
    exact hn a ha hin

/-- Witness of C10: the key KeyA on a connected client, on a client whose moving
flag is set with no arrow key held, on a client whose socket is not open, and
while ArrowUp is held. -/
theorem C10_non_arrow_key_witness :
    ((onKeydown (onopen (create 800 600)) "KeyA").sent = (onopen (create 800 600)).sent ∧
      (onKeydown (onopen (create 800 600)) "KeyA").isMoving =
        (onopen (create 800 600)).isMoving) ∧
    ((onKeyup (sendMoveCommand (onopen (create 800 600)) (DirectionValue.str "up")) "KeyA").sent =
        (sendMoveCommand (onopen (create 800 600)) (DirectionValue.str "up")).sent ++
          [Command.stop] ∧
      (onKeyup (sendMoveCommand (onopen (create 800 600)) (DirectionValue.str "up"))
        "KeyA").isMoving = false) ∧
    ((onKeyup (create 800 600) "KeyA").sent = (create 800 600).sent ∧
      (onKeyup (create 800 600) "KeyA").isMoving = (create 800 600).isMoving) ∧
    ((onKeyup (runKeys (onopen (create 800 600)) [KeyEvent.down "ArrowUp"]) "KeyA").sent =
        (runKeys (onopen (create 800 600)) [KeyEvent.down "ArrowUp"]).sent ∧
      (onKeyup (runKeys (onopen (create 800 600)) [KeyEvent.down "ArrowUp"]) "KeyA").isMoving =
        (runKeys (onopen (create 800 600)) [KeyEvent.down "ArrowUp"]).isMoving) :=
  ⟨(C10_non_arrow_key (onopen (create 800 600)) "KeyA" (by decide) (by decide)).1,
   (C10_non_arrow_key (sendMoveCommand (onopen (create 800 600)) (DirectionValue.str "up"))
      "KeyA" (by decide) (by decide)).2.1 rfl rfl (by decide),
   (C10_non_arrow_key (create 800 600) "KeyA" (by decide) (by decide)).2.2.1 (by decide),
   (C10_non_arrow_key (runKeys (onopen (create 800 600)) [KeyEvent.down "ArrowUp"]) "KeyA"
      (by decide) (by decide)).2.2.2 (onopen (create 800 600)) [KeyEvent.down "ArrowUp"]
      rfl rfl rfl (by simp [objectPrototypeMembers]) rfl⟩

/-- C10 fails as stated: the state reached by opening the socket, pressing
ArrowUp, losing the socket, releasing ArrowUp while it is closed, reconnecting
and pressing KeyA has the moving flag set with no arrow key held; there the
key-up of the non-arrow key KeyA sends a `stop` and clears the flag. -/
theorem C10_non_arrow_keyup_sends_stop :
    "KeyA" ∉ movementKeys ∧
    (run (create 800 600)
      [Event.wsOpen, Event.keydown "ArrowUp", Event.wsClose, Event.keyup "ArrowUp",
        Event.reconnectTimer, Event.wsOpen, Event.keydown "KeyA"]).isMoving = true ∧
    (step (run (create 800 600)
      [Event.wsOpen, Event.keydown "ArrowUp", Event.wsClose, Event.keyup "ArrowUp",
        Event.reconnectTimer, Event.wsOpen, Event.keydown "KeyA"]) (Event.keyup "KeyA")).sent =
      (run (create 800 600)
        [Event.wsOpen, Event.keydown "ArrowUp", Event.wsClose, Event.keyup "ArrowUp",
          Event.reconnectTimer, Event.wsOpen, Event.keydown "KeyA"]).sent ++ [Command.stop] ∧
    (step (run (create 800 600)
      [Event.wsOpen, Event.keydown "ArrowUp", Event.wsClose, Event.keyup "ArrowUp",
        Event.reconnectTimer, Event.wsOpen, Event.keydown "KeyA"]) (Event.keyup "KeyA")).isMoving =
      false := by
  refine ⟨by decide, by decide, by decide, by decide⟩

end GameClient

namespace GameClient

/-- C8, as the code has it: text that does not parse (and the text `null`) is
dropped with the record unchanged, and so is a `player_joined` without player
and a `players_moved` without players; but what a handler wrote before the
failing read stays: a successful `join_game` without players has set the local
id; one with players and no avatars has set the local id, stored the players
and set the local player; a `player_joined` without avatar has stored the
player; and a successful `join_game` with all its fields that fails in the
redraw, on a `null` snapshot, has made all its writes, the viewport included. -/
theorem C8_failed_message_effects (c : State) :
    (∀ text, (parseAndHandle c (Payload.unparsable text)).thrown ≠ none ∧
      onmessage c (Payload.unparsable text) = c) ∧
    ((parseAndHandle c Payload.null).thrown ≠ none ∧ onmessage c Payload.null = c) ∧
    (∀ playerId avatars,
      (parseAndHandle c (Payload.parsed (ServerMessage.join_game
        { success := true, playerId := playerId, players := none,
          avatars := avatars }))).thrown ≠ none ∧
      onmessage c (Payload.parsed (ServerMessage.join_game
        { success := true, playerId := playerId, players := none,
          avatars := avatars })) = { c with myPlayerId := playerId }) ∧
    (∀ playerId players,
      (parseAndHandle c (Payload.parsed (ServerMessage.join_game
        { success := true, playerId := playerId, players := some players,
          avatars := none }))).thrown ≠ none ∧
      onmessage c (Payload.parsed (ServerMessage.join_game
        { success := true, playerId := playerId, players := some players,
          avatars := none })) =
        { c with
          myPlayerId := playerId
          players := setAll c.players players
          myPlayer := localPlayerAfter playerId c.myPlayer players }) ∧
    (∀ avatar,
      (parseAndHandle c (Payload.parsed (ServerMessage.player_joined
        { player := none, avatar := avatar }))).thrown ≠ none ∧
      onmessage c (Payload.parsed (ServerMessage.player_joined
        { player := none, avatar := avatar })) = c) ∧
    (∀ player,
      (parseAndHandle c (Payload.parsed (ServerMessage.player_joined
        { player := some player, avatar := none }))).thrown ≠ none ∧
      onmessage c (Payload.parsed (ServerMessage.player_joined
        { player := some player, avatar := none })) =
        { c with players := mapSet c.players player.id (some player) }) ∧
    ((parseAndHandle c (Payload.parsed (ServerMessage.players_moved
        { players := none }))).thrown ≠ none ∧
      onmessage c (Payload.parsed (ServerMessage.players_moved { players := none })) = c) ∧
    (∀ playerId players avatars, (∀ e ∈ avatars, e.2.frames ≠ none) →
      (∃ e ∈ setAll c.players players, e.2 = none) →
      (parseAndHandle c (Payload.parsed (ServerMessage.join_game
        (joinMessage playerId players avatars)))).thrown ≠ none ∧
      onmessage c (Payload.parsed (ServerMessage.join_game
        (joinMessage playerId players avatars))) =
        { updateViewport { c with
            myPlayerId := playerId
            players := setAll c.players players
            myPlayer := localPlayerAfter playerId c.myPlayer players
            avatars := setAll c.avatars avatars
            avatarImages := (avatarsLoaded c.avatarImages c.imageLoads avatars).1
            imageLoads := (avatarsLoaded c.avatarImages c.imageLoads avatars).2 } with
          redraws := c.redraws + 1 }) := by
  refine ⟨?_, ?_, ?_, ?_, ?_, ?_, ?_, ?_⟩
  · intro text
    exact ⟨by simp [parseAndHandle, Outcome.typeError], rfl⟩
  · exact ⟨by simp [parseAndHandle, Outcome.typeError], rfl⟩
  · intro playerId avatars
    exact ⟨by simp [parseAndHandle, handleServerMessage, handleJoinGameSuccess,
      Outcome.typeError], rfl⟩
  · intro playerId players
    refine ⟨by simp [parseAndHandle, handleServerMessage, handleJoinGameSuccess,
      Outcome.typeError], ?_⟩
    simp only [onmessage, parseAndHandle, handleServerMessage, handleJoinGameSuccess,
      Outcome.typeError, foldl_storePlayer, if_true]
  · intro avatar
    exact ⟨by simp [parseAndHandle, handleServerMessage, handlePlayerJoined,
      Outcome.typeError], rfl⟩
  · intro player
    exact ⟨by simp [parseAndHandle, handleServerMessage, handlePlayerJoined,
      Outcome.typeError], rfl⟩
  · exact ⟨by simp [parseAndHandle, handleServerMessage, handlePlayersMoved,
      Outcome.typeError], rfl⟩
  · intro playerId players avatars hf hnull
    have hsucc : (joinMessage playerId players avatars).success = true := rfl
    have hrun : parseAndHandle c (Payload.parsed (ServerMessage.join_game
        (joinMessage playerId players avatars))) =
        handleJoinGameSuccess c (joinMessage playerId players avatars) := by
      simp only [parseAndHandle, handleServerMessage, hsucc, if_true]
    obtain ⟨e, he, hnone⟩ := hnull
    constructor
    · rw [hrun, handleJoinGameSuccess_of_frames c playerId players avatars hf]
      apply drawGame_thrown_of_null _ e _ hnone
      rw [updateViewport_players]
      exact he
    · show (parseAndHandle c _).state = _
      rw [hrun, handleJoinGameSuccess_of_frames c playerId players avatars hf, drawGame_state]
      simp only [updateViewport]
      cases localPlayerAfter playerId c.myPlayer players <;> rfl

/-- Witness of C8: on a connected client that has not joined, the successful
`join_game` in which the snapshot of `p2` is `null`. -/
theorem C8_failed_message_effects_witness :
    (parseAndHandle (onopen (create 800 600)) (Payload.parsed (ServerMessage.join_game
      (joinMessage (some "p1") [("p1", some (samplePlayer "p1" 1000 1000)), ("p2", none)]
        [("a", sampleAvatar)])))).thrown ≠ none ∧
    onmessage (onopen (create 800 600)) (Payload.parsed (ServerMessage.join_game
      (joinMessage (some "p1") [("p1", some (samplePlayer "p1" 1000 1000)), ("p2", none)]
        [("a", sampleAvatar)]))) =
      { updateViewport { onopen (create 800 600) with
          myPlayerId := some "p1"
          players := setAll (onopen (create 800 600)).players
            [("p1", some (samplePlayer "p1" 1000 1000)), ("p2", none)]
          myPlayer := localPlayerAfter (some "p1") (onopen (create 800 600)).myPlayer
            [("p1", some (samplePlayer "p1" 1000 1000)), ("p2", none)]
          avatars := setAll (onopen (create 800 600)).avatars [("a", sampleAvatar)]
          avatarImages := (avatarsLoaded (onopen (create 800 600)).avatarImages
            (onopen (create 800 600)).imageLoads [("a", sampleAvatar)]).1
          imageLoads := (avatarsLoaded (onopen (create 800 600)).avatarImages
            (onopen (create 800 600)).imageLoads [("a", sampleAvatar)]).2 } with
        redraws := (onopen (create 800 600)).redraws + 1 } :=
  (C8_failed_message_effects (onopen (create 800 600))).2.2.2.2.2.2.2 (some "p1")
    [("p1", some (samplePlayer "p1" 1000 1000)), ("p2", none)] [("a", sampleAvatar)]
    (by decide) ⟨("p2", none), by decide, rfl⟩

/-- C8 fails as stated: on a connected client that has not joined yet, a
`join_game` with `success: true` and players but no avatars throws inside the
handler after the local id, the roster and the local player have been written;
a `player_joined` without avatar throws after the roster has been written; and a
`join_game` with a `null` snapshot throws in the redraw, after the viewport has
moved to (600, 700). -/
theorem C8_failed_message_mutates_state :
    (parseAndHandle (onopen (create 800 600))
      (Payload.parsed (ServerMessage.join_game joinWithoutAvatars))).thrown ≠ none ∧
    (onopen (create 800 600)).players = [] ∧
    (onmessage (onopen (create 800 600))
      (Payload.parsed (ServerMessage.join_game joinWithoutAvatars))).players =
      [("p1", some (samplePlayer "p1" 1000 1000))] ∧
    (onopen (create 800 600)).myPlayerId = none ∧
    (onmessage (onopen (create 800 600))
      (Payload.parsed (ServerMessage.join_game joinWithoutAvatars))).myPlayerId = some "p1" ∧
    (onopen (create 800 600)).myPlayer = none ∧
    (onmessage (onopen (create 800 600))
      (Payload.parsed (ServerMessage.join_game joinWithoutAvatars))).myPlayer =
      some (samplePlayer "p1" 1000 1000) ∧
    (parseAndHandle (onopen (create 800 600)) (Payload.parsed joinedWithoutAvatar)).thrown ≠
      none ∧
    (onmessage (onopen (create 800 600)) (Payload.parsed joinedWithoutAvatar)).players =
      [("p2", some (samplePlayer "p2" 200 200))] ∧
    (parseAndHandle (onopen (create 800 600))
      (Payload.parsed (ServerMessage.join_game joinWithNullSnapshot))).thrown ≠ none ∧
    (onopen (create 800 600)).viewportX = 0 ∧
    (onmessage (onopen (create 800 600))
      (Payload.parsed (ServerMessage.join_game joinWithNullSnapshot))).viewportX = 600 ∧
    (onmessage (onopen (create 800 600))
      (Payload.parsed (ServerMessage.join_game joinWithNullSnapshot))).viewportY = 700 := by
  have hnull : onmessage (onopen (create 800 600))
      (Payload.parsed (ServerMessage.join_game joinWithNullSnapshot)) =
      (drawGame (updateViewport { onopen (create 800 600) with
          myPlayerId := some "p1"
          players := setAll (onopen (create 800 600)).players
            [("p1", some (samplePlayer "p1" 1000 1000)), ("p2", none)]
          myPlayer := localPlayerAfter (some "p1") (onopen (create 800 600)).myPlayer
            [("p1", some (samplePlayer "p1" 1000 1000)), ("p2", none)]
          avatars := setAll (onopen (create 800 600)).avatars [("a", sampleAvatar)]
          avatarImages := (avatarsLoaded (onopen (create 800 600)).avatarImages
            (onopen (create 800 600)).imageLoads [("a", sampleAvatar)]).1
          imageLoads := (avatarsLoaded (onopen (create 800 600)).avatarImages
            (onopen (create 800 600)).imageLoads [("a", sampleAvatar)]).2 })).state := by
    have h := handleJoinGameSuccess_of_frames (onopen (create 800 600)) (some "p1")
      [("p1", some (samplePlayer "p1" 1000 1000)), ("p2", none)] [("a", sampleAvatar)]
      (by decide)
    have e : joinWithNullSnapshot = joinMessage (some "p1")
      [("p1", some (samplePlayer "p1" 1000 1000)), ("p2", none)] [("a", sampleAvatar)] := rfl
    show (parseAndHandle _ _).state = _
    rw [e, ← h]
    rfl
  have hmp : localPlayerAfter (some "p1") (onopen (create 800 600)).myPlayer
      [("p1", some (samplePlayer "p1" 1000 1000)), ("p2", none)] =
      some (samplePlayer "p1" 1000 1000) := by decide
  refine ⟨by decide, rfl, by decide, rfl, by decide, rfl, by decide, by decide, by decide,
    by decide, rfl, ?_, ?_⟩
  · rw [hnull, drawGame_state]
    simp only [updateViewport, hmp]
    norm_num [samplePlayer, show (onopen (create 800 600)).canvasWidth = 800 from rfl,
      show (onopen (create 800 600)).worldWidth = 2048 from rfl]
  · rw [hnull, drawGame_state]
    simp only [updateViewport, hmp]
    norm_num [samplePlayer, show (onopen (create 800 600)).canvasHeight = 600 from rfl,
      show (onopen (create 800 600)).worldHeight = 2048 from rfl]

end GameClient

namespace GameClient

theorem mem_mapSet {α : Type} (m : List (String × α)) (k : String) (v : α)
    (e : String × α) (h : e ∈ mapSet m k v) : e ∈ m ∨ e = (k, v) := by
  induction m with
  | nil =>
    simp only [mapSet, List.mem_singleton] at h
    exact Or.inr h
  | cons x t ih =>
    obtain ⟨a, b⟩ := x
    by_cases hak : a = k
    · simp only [mapSet, hak, if_true, List.mem_cons] at h
      rcases h with h | h
      · exact Or.inr h
      · exact Or.inl (List.mem_cons_of_mem _ h)
    · simp only [mapSet, hak, if_false, List.mem_cons] at h
      rcases h with h | h
      · exact Or.inl (by rw [h]; exact List.mem_cons_self _ _)
      · rcases ih h with h' | h'
        · exact Or.inl (List.mem_cons_of_mem _ h')
        · exact Or.inr h'

/-- C9, as the code has it: `handlePlayerJoined` upserts the player and, whether
or not the catalog already holds the avatar's name, stores the message's avatar
definition under that name, replaces the decoded-frame entry of that name by
empty frame lists and starts one image load per frame of the message's avatar.
It completes when no roster value stored before is `null`. -/
theorem C9_player_joined_reloads_avatar (c : State) (player : Player) (name : String)
    (frames : List (String × List String)) :
    mapGet (handlePlayerJoined c
      (joinedMessage player { name := name, frames := some frames })).state.players player.id =
      some (some player) ∧
    mapGet (handlePlayerJoined c
      (joinedMessage player { name := name, frames := some frames })).state.avatars name =
      some { name := name, frames := some frames } ∧
    mapGet (handlePlayerJoined c
      (joinedMessage player { name := name, frames := some frames })).state.avatarImages name =
      some { north := [], south := [], east := [] } ∧
    (handlePlayerJoined c
      (joinedMessage player { name := name, frames := some frames })).state.imageLoads =
      c.imageLoads ++ frameLoads name frames ∧
    (frameLoads name frames).length = (frames.map (fun entry => entry.2.length)).sum ∧
    ((∀ e ∈ c.players, e.2 ≠ none) →
      (handlePlayerJoined c
        (joinedMessage player { name := name, frames := some frames })).thrown = none) := by
  have hrun : handlePlayerJoined c
      (joinedMessage player { name := name, frames := some frames }) =
      drawGame { c with
        players := mapSet c.players player.id (some player)
        avatars := mapSet c.avatars name { name := name, frames := some frames }
        imageLoads := c.imageLoads ++ frameLoads name frames
        avatarImages := mapSet c.avatarImages name { north := [], south := [], east := [] } } := by
    simp only [handlePlayerJoined, joinedMessage, loadAvatarImages, Outcome.ok]
  rw [hrun, drawGame_state]
  refine ⟨?_, ?_, ?_, rfl, ?_, ?_⟩
  · show mapGet (mapSet c.players player.id (some player)) player.id = some (some player)
    rw [mapGet_mapSet, if_pos rfl]
  · show mapGet (mapSet c.avatars name _) name = _
    rw [mapGet_mapSet, if_pos rfl]
  · show mapGet (mapSet c.avatarImages name _) name = _
    rw [mapGet_mapSet, if_pos rfl]
  · simp only [frameLoads, List.length_flatten, List.map_map]
    congr 1
    apply List.map_congr_left
    intro entry _
    simp
  · intro hall
    apply drawGame_thrown_of_no_null
    intro e he
    rcases mem_mapSet c.players player.id (some player) e he with h | h
    · exact hall e h
    · rw [h]
      exact fun hn => Option.noConfusion hn

/-- Witness of C9: a second player joining with the known avatar `a` on the client
whose frames of `a` have decoded. -/
theorem C9_player_joined_reloads_avatar_witness :
    (handlePlayerJoined decodedClient
      (joinedMessage (samplePlayer "p2" 200 200)
        { name := "a", frames := some [("north", ["f0"]), ("south", ["f0"]),
          ("east", ["f0"])] })).thrown = none :=
  (C9_player_joined_reloads_avatar decodedClient (samplePlayer "p2" 200 200) "a"
    [("north", ["f0"]), ("south", ["f0"]), ("east", ["f0"])]).2.2.2.2.2 (by decide)

/-- C9 fails as stated: on a client whose catalog holds avatar `a` with its three
frames decoded, a `player_joined` whose avatar is named `a` empties the
decoded-frame entry of `a` and starts three new image loads, and one that
carries another definition under the name `a` replaces the catalog's
definition. -/
theorem C9_known_avatar_is_reloaded :
    mapGet decodedClient.avatars "a" = some sampleAvatar ∧
    mapGet decodedClient.avatarImages "a" =
      some { north := [some "f0"], south := [some "f0"], east := [some "f0"] } ∧
    mapGet (handlePlayerJoined decodedClient
      (joinedMessage (samplePlayer "p2" 200 200) sampleAvatar)).state.avatarImages "a" =
      some { north := [], south := [], east := [] } ∧
    (handlePlayerJoined decodedClient
      (joinedMessage (samplePlayer "p2" 200 200) sampleAvatar)).state.imageLoads =
      decodedClient.imageLoads ++
        [{ avatarName := "a", direction := "north", index := 0, src := "f0" },
         { avatarName := "a", direction := "south", index := 0, src := "f0" },
         { avatarName := "a", direction := "east", index := 0, src := "f0" }] ∧
    mapGet (handlePlayerJoined decodedClient
      (joinedMessage (samplePlayer "p2" 200 200) otherAvatar)).state.avatars "a" =
      some otherAvatar ∧
    otherAvatar ≠ sampleAvatar := by
  refine ⟨by decide, by decide, by decide, by decide, by decide, by decide⟩

end GameClient
